import Mathlib

/-!
Verification of the light-client commit verifier (validator-set importer,
commit importer, commit verifier) against its specification.

The TypeScript sources are embedded shallowly:
* `Uint8Array` values become `List Nat` (each element a byte value),
* `bigint` becomes `Int` (JavaScript bigints are exact unbounded integers),
* JavaScript `number` values flowing through `Number(...)` are modelled by
  exact rationals rounded to IEEE-754 binade precision (`jsNumberOfString`),
* the Web Crypto primitives (`crypto.subtle.digest`, `importKey`, `verify`)
  are external to the repository and are passed in as explicit function
  parameters (a rejected promise of `verify` is `none`),
* a `throw` becomes `Except.error` with the thrown message.
-/

namespace CometTS

/-! ## Encoding helpers (`encoding.ts` is out of scope per the spec;
these model the standard hex/base64 primitives it provides). -/

/-- Lowercase hex digits, as produced by the hex encoding helper. -/
def hexDigitsLower : List Char :=
  "0123456789abcdef".data

/-- One byte rendered as two lowercase hex characters. -/
def byteToHexChars (b : Nat) : List Char :=
  [hexDigitsLower.getD (b / 16 % 16) '0', hexDigitsLower.getD (b % 16) '0']

/-- Modelled from the spec: `Uint8ArrayToHex` of `encoding.ts`, hex encoding
of a byte sequence (lowercase; call sites always uppercase the result). -/
def Uint8ArrayToHex (bs : List Nat) : String :=
  String.mk (bs.foldr (fun b acc => byteToHexChars b ++ acc) [])

/-- JavaScript `String.prototype.toUpperCase` on the ASCII strings that
occur here (hex digits, field names): uppercase each character. -/
def toUpperCase (s : String) : String :=
  String.mk (s.data.map Char.toUpper)

/-- The uppercase hex form used as map key throughout the sources:
`Uint8ArrayToHex(bytes).toUpperCase()`. -/
def hexUpper (bs : List Nat) : String :=
  toUpperCase (Uint8ArrayToHex bs)

/-- Numeric value of one hex character (either case); non-hex maps to 0,
which no claim depends on. -/
def hexVal (c : Char) : Nat :=
  if '0' ≤ c ∧ c ≤ '9' then c.toNat - '0'.toNat
  else if 'a' ≤ c ∧ c ≤ 'f' then c.toNat - 'a'.toNat + 10
  else if 'A' ≤ c ∧ c ≤ 'F' then c.toNat - 'A'.toNat + 10
  else 0

/-- Hex characters, two per byte; a trailing odd character is dropped. -/
def hexPairsToBytes : List Char → List Nat
  | c1 :: c2 :: rest => (16 * hexVal c1 + hexVal c2) :: hexPairsToBytes rest
  | _ => []

/-- Modelled from the spec: `hexToUint8Array` of `encoding.ts`. -/
def hexToUint8Array (s : String) : List Nat :=
  hexPairsToBytes s.data

/-- Standard base64 alphabet. -/
def base64Alphabet : List Char :=
  ['A', 'B', 'C', 'D', 'E', 'F', 'G', 'H', 'I', 'J', 'K', 'L', 'M',
   'N', 'O', 'P', 'Q', 'R', 'S', 'T', 'U', 'V', 'W', 'X', 'Y', 'Z',
   'a', 'b', 'c', 'd', 'e', 'f', 'g', 'h', 'i', 'j', 'k', 'l', 'm',
   'n', 'o', 'p', 'q', 'r', 's', 't', 'u', 'v', 'w', 'x', 'y', 'z',
   '0', '1', '2', '3', '4', '5', '6', '7', '8', '9', '+', '/']

/-- Index of a character in the base64 alphabet (padding and anything
else yields `none` and is skipped). -/
def b64Val (c : Char) : Option Nat :=
  base64Alphabet.indexOf? c

/-- Reassemble bytes from a list of 6-bit values. -/
def b64Chunks : List Nat → List Nat
  | a :: b :: c :: d :: rest =>
      (a * 4 + b / 16) :: ((b % 16) * 16 + c / 4) :: ((c % 4) * 64 + d) :: b64Chunks rest
  | [a, b, c] => [a * 4 + b / 16, (b % 16) * 16 + c / 4]
  | [a, b] => [a * 4 + b / 16]
  | _ => []

/-- Modelled from the spec: `base64ToUint8Array` of `encoding.ts`. -/
def base64ToUint8Array (s : String) : List Nat :=
  b64Chunks (s.data.filterMap b64Val)

/-- Decimal digit lists to numbers; `none` when a non-digit occurs. -/
def digitsToNat : List Char → Option Nat
  | [] => some 0
  | c :: rest =>
      if c.isDigit then
        (digitsToNat rest).map (fun n => (c.toNat - '0'.toNat) * 10 ^ rest.length + n)
      else none

/-- `BigInt(string)` on the decimal strings the sources feed it: an optional
sign followed by digits, exact; anything else throws (`none`). -/
def parseBigInt (s : String) : Option Int :=
  match s.data with
  | [] => some 0
  | '-' :: rest =>
      if rest = [] then none else (digitsToNat rest).map (fun n => -(n : Int))
  | l => (digitsToNat l).map (fun n => (n : Int))

/-! ## JavaScript `Number` model.

`Number(s)` parses the decimal string to an exact rational and rounds it
to the nearest IEEE-754 double (ties to even).  Every finite nonnegative
double is a dyadic rational `m * 2^e`; `JsNumber` stores that canonical
pair (odd `m`, or `0, 0`), so equality of values is structural equality.
All integers of magnitude at most 2^53 are represented exactly; above
that, rounding occurs — this is where the voting-power importer loses
precision.  `none` models a non-finite result (NaN for unparseable
input, Infinity on overflow); the strings these sources feed to
`Number` are nonnegative decimals, which is the domain modelled. -/

/-- A finite nonnegative double: the value `m * 2^e` with `m` odd
(canonical), or zero as `0, 0`. -/
structure JsNumber where
  m : Int
  e : Int
deriving DecidableEq

/-- Fueled base-2 logarithm of a natural number (structural, so it
reduces inside the kernel; fuel `n` always suffices). -/
def natLog2Aux : Nat → Nat → Nat
  | 0, _ => 0
  | fuel + 1, n => if n ≤ 1 then 0 else natLog2Aux fuel (n / 2) + 1

/-- Floor base-2 logarithm of a natural number. -/
def natLog2 (n : Nat) : Nat :=
  natLog2Aux n n

/-- Strip factors of two into the exponent (fueled, structural). -/
def stripTwos : Nat → Int → Int → JsNumber
  | 0, m, e => { m := m, e := e }
  | fuel + 1, m, e =>
      if m = 0 then { m := 0, e := 0 }
      else if m % 2 = 0 then stripTwos fuel (m / 2) (e + 1)
      else { m := m, e := e }

/-- Canonical dyadic from any mantissa/exponent pair. -/
def JsNumber.canon (m : Int) (e : Int) : JsNumber :=
  stripTwos (m.natAbs + 1) m e

/-- The double holding a small natural number exactly. -/
def JsNumber.ofNat (n : Nat) : JsNumber :=
  JsNumber.canon n 0

/-- Whether `2^c ≤ a / b` (for positive `a`, `b`), by cross
multiplication. -/
def twoPowLeRat (c : Int) (a b : Nat) : Bool :=
  if 0 ≤ c then b * 2 ^ c.toNat ≤ a else b ≤ a * 2 ^ (-c).toNat

/-- Floor base-2 logarithm of the positive rational `a / b`. -/
def ratLog2 (a b : Nat) : Int :=
  let c : Int := (natLog2 a : Int) - (natLog2 b : Int)
  if twoPowLeRat c a b then c else c - 1

/-- Round the nonnegative rational `a / b` to the nearest double
(53-bit significand, ties to even); `none` is overflow to Infinity.
Subnormal granularity is not modelled (no input here gets near it). -/
def roundPosRatToDouble (a b : Nat) : Option JsNumber :=
  if a = 0 then some { m := 0, e := 0 }
  else
    let e := max (ratLog2 a b) (-1022)
    let s := 52 - e
    let num : Nat := if 0 ≤ s then a * 2 ^ s.toNat else a
    let den : Nat := if 0 ≤ s then b else b * 2 ^ (-s).toNat
    let f : Nat := num / den
    let rem2 := 2 * (num % den)
    let m : Nat :=
      if rem2 < den then f
      else if den < rem2 then f + 1
      else if f % 2 = 0 then f else f + 1
    -- overflow to Infinity: m * 2^(e-52) ≥ 2^1024, i.e. its floor log2
    -- (`natLog2 m + e - 52`) reaches 1024
    if 0 < m ∧ 1024 ≤ (natLog2 m : Int) + e - 52 then none
    else some (JsNumber.canon m (e - 52))

/-- `Number(s)` for the strings these sources feed it (nonnegative
decimals; the empty string coerces to 0 in JavaScript; anything else is
NaN). -/
def jsNumberOfString (s : String) : Option JsNumber :=
  match s.data.span (fun c => c ≠ '.') with
  | (intPart, []) =>
      if intPart = [] then some { m := 0, e := 0 }
      else (digitsToNat intPart).bind (fun n => roundPosRatToDouble n 1)
  | (intPart, _ :: fracPart) =>
      if intPart = [] ∨ fracPart = [] then none
      else
        match digitsToNat intPart, digitsToNat fracPart with
        | some n, some f =>
            roundPosRatToDouble (n * 10 ^ fracPart.length + f) (10 ^ fracPart.length)
        | _, _ => none

/-- `Number(x)` when `x` may be `undefined` (`Number(undefined)` is NaN). -/
def jsNumberOfOptString : Option String → Option JsNumber
  | none => none
  | some s => jsNumberOfString s

/-- JavaScript truthiness of a number value (`NaN`, `0` are falsy). -/
def jsTruthy : Option JsNumber → Bool
  | none => false
  | some d => d.m ≠ 0

/-- `Number.isInteger` on a finite double (canonical form: integer iff
the exponent is nonnegative). -/
def JsNumber.isInt (d : JsNumber) : Bool :=
  0 ≤ d.e

/-- The exact integer value of an integer-valued double. -/
def JsNumber.toInt (d : JsNumber) : Int :=
  if 0 ≤ d.e then d.m * 2 ^ d.e.toNat else 0

/-- Whether the double is less than the integer `c` (exact). -/
def JsNumber.ltInt (d : JsNumber) (c : Int) : Bool :=
  if 0 ≤ d.e then d.m * 2 ^ d.e.toNat < c else d.m < c * 2 ^ (-d.e).toNat

/-- JavaScript `a !== b` on two number values (`NaN !== x` always
holds; canonical dyadics make value equality structural). -/
def jsNeq : Option JsNumber → Option JsNumber → Bool
  | some a, some b => a ≠ b
  | _, _ => true

/-- JavaScript `a < c` for a number value against an integer constant
(false when `a` is NaN or +Infinity). -/
def jsLt (a : Option JsNumber) (c : Int) : Bool :=
  match a with
  | some d => d.ltInt c
  | none => false

/-- JavaScript floating-point addition of two finite nonnegative
doubles: exact dyadic sum, rounded back to a double. -/
def jsAdd (a : Option JsNumber) (b : JsNumber) : Option JsNumber :=
  match a with
  | none => none
  | some x =>
      let e0 := min x.e b.e
      let num : Int := x.m * 2 ^ (x.e - e0).toNat + b.m * 2 ^ (b.e - e0).toNat
      if 0 ≤ e0 then roundPosRatToDouble (num.natAbs * 2 ^ e0.toNat) 1
      else roundPosRatToDouble num.natAbs (2 ^ (-e0).toNat)

/-! ## Canonical protobuf vote encoding.

Modelled from the spec: the generated encoders under `src/proto/**`
(`CanonicalVote.encode`, `CanonicalBlockID.encode`,
`CanonicalPartSetHeader.encode`, `Timestamp.encode`) are not part of the
sources under study; spec §4.3 fixes them as the deterministic,
field-tagged, length-delimited protobuf encoding of the canonical types
with the omit-default-zero rule (`round = 0` and an absent timestamp emit
nothing), `height`/`round` as 64-bit fixed-width fields, and `chain_id`
as the last field. -/

/-- Little-endian base-128 varint groups, with enough fuel for any value
the encoders produce (structural, so it reduces inside the kernel). -/
def encodeVarintAux : Nat → Nat → List Nat
  | 0, n => [n]
  | fuel + 1, n => if n < 128 then [n] else (n % 128 + 128) :: encodeVarintAux fuel (n / 128)

/-- Little-endian base-128 varint of a natural number (all encoded values
are below 2^64, for which ten groups always suffice). -/
def encodeVarint (n : Nat) : List Nat :=
  encodeVarintAux 10 n

/-- A signed 64-bit value as its two's-complement natural (protobuf int64). -/
def toUInt64Nat (i : Int) : Nat :=
  (i % (2 ^ 64 : Int)).toNat

/-- Varint encoding of a protobuf `int64`/`int32` field value. -/
def encodeVarintInt64 (i : Int) : List Nat :=
  encodeVarint (toUInt64Nat i)

/-- Little-endian 8-byte encoding of a protobuf `sfixed64` value. -/
def encodeFixed64 (i : Int) : List Nat :=
  let n := toUInt64Nat i
  [n % 256, n / 256 % 256, n / 256 ^ 2 % 256, n / 256 ^ 3 % 256,
   n / 256 ^ 4 % 256, n / 256 ^ 5 % 256, n / 256 ^ 6 % 256, n / 256 ^ 7 % 256]

/-- Length-delimited payload: varint byte count followed by the bytes. -/
def lenDelim (bs : List Nat) : List Nat :=
  encodeVarint bs.length ++ bs

/-- UTF-8 encoding of one character. -/
def utf8EncodeCharBytes (c : Char) : List Nat :=
  let n := c.toNat
  if n < 0x80 then [n]
  else if n < 0x800 then [0xC0 + n / 64, 0x80 + n % 64]
  else if n < 0x10000 then [0xE0 + n / 4096, 0x80 + n / 64 % 64, 0x80 + n % 64]
  else [0xF0 + n / 262144, 0x80 + n / 4096 % 64, 0x80 + n / 64 % 64, 0x80 + n % 64]

/-- UTF-8 bytes of a string. -/
def utf8Bytes (s : String) : List Nat :=
  (s.data.map utf8EncodeCharBytes).flatten

/-- `google.protobuf.Timestamp`: `seconds` (int64, field 1) and `nanos`
(int32, field 2). -/
structure PbTimestamp where
  seconds : Int
  nanos : Int
deriving DecidableEq

/-- Encoder for `Timestamp` (omits zero-valued fields). -/
def PbTimestamp.encode (t : PbTimestamp) : List Nat :=
  (if t.seconds ≠ 0 then 8 :: encodeVarintInt64 t.seconds else []) ++
  (if t.nanos ≠ 0 then 16 :: encodeVarintInt64 t.nanos else [])

/-- `CanonicalPartSetHeader`: `total` (uint32, field 1), `hash` (bytes,
field 2). -/
structure CanonicalPartSetHeader where
  total : Int
  hash : List Nat
deriving DecidableEq

/-- Encoder for `CanonicalPartSetHeader`. -/
def CanonicalPartSetHeader.encode (p : CanonicalPartSetHeader) : List Nat :=
  (if p.total ≠ 0 then 8 :: encodeVarint (toUInt64Nat p.total % 2 ^ 32) else []) ++
  (if p.hash ≠ [] then 18 :: lenDelim p.hash else [])

/-- `CanonicalBlockID`: `hash` (bytes, field 1), `part_set_header`
(message, field 2). -/
structure CanonicalBlockID where
  hash : List Nat
  partSetHeader : Option CanonicalPartSetHeader
deriving DecidableEq

/-- Encoder for `CanonicalBlockID`. -/
def CanonicalBlockID.encode (b : CanonicalBlockID) : List Nat :=
  (if b.hash ≠ [] then 10 :: lenDelim b.hash else []) ++
  (match b.partSetHeader with
   | some p => 18 :: lenDelim p.encode
   | none => [])

/-- `CanonicalVote`: `type` (enum, field 1), `height` (sfixed64, field 2),
`round` (sfixed64, field 3), `block_id` (message, field 4), `timestamp`
(message, field 5), `chain_id` (string, field 6).  `PRECOMMIT` is enum
value 2. -/
structure CanonicalVote where
  type : Int
  height : Int
  round : Int
  blockId : Option CanonicalBlockID
  timestamp : Option PbTimestamp
  chainId : String
deriving DecidableEq

/-- Encoder for `CanonicalVote`: fixed field order, zero-valued scalar
fields and absent messages emit nothing. -/
def CanonicalVote.encode (v : CanonicalVote) : List Nat :=
  (if v.type ≠ 0 then 8 :: encodeVarintInt64 v.type else []) ++
  (if v.height ≠ 0 then 17 :: encodeFixed64 v.height else []) ++
  (if v.round ≠ 0 then 25 :: encodeFixed64 v.round else []) ++
  (match v.blockId with
   | some b => 34 :: lenDelim b.encode
   | none => []) ++
  (match v.timestamp with
   | some t => 42 :: lenDelim t.encode
   | none => []) ++
  (if v.chainId ≠ "" then 50 :: lenDelim (utf8Bytes v.chainId) else [])

/-! ## Data model (ts-proto record types as used by `commit.ts`,
`validators.ts` and `lightclient.ts`). -/

/-- `Validator` of `proto/cometbft/types/v1/validator` as produced by
`importValidators`; `votingPower` is optional because `verifyCommit`
guards it with `?? 0n`. -/
structure Validator where
  address : List Nat
  pubKeyBytes : List Nat
  pubKeyType : String
  votingPower : Option Int
  proposerPriority : Int
deriving DecidableEq

/-- `ValidatorSet`; `totalVotingPower` is optional because `verifyCommit`
guards it with `?? 0n`. -/
structure ValidatorSet where
  validators : List Validator
  proposer : Option Validator
  totalVotingPower : Option Int
deriving DecidableEq

/-- `ProtoPartSetHeader` of `commit.ts`. -/
structure ProtoPartSetHeader where
  total : Int
  hash : List Nat
deriving DecidableEq

/-- `ProtoBlockID` of `commit.ts`; `partSetHeader` optional because
`verifyCommit` guards its presence. -/
structure ProtoBlockID where
  hash : List Nat
  partSetHeader : Option ProtoPartSetHeader
deriving DecidableEq

/-- `ProtoCommitSig` of `commit.ts`: an absent/empty signature is the
empty byte list, exactly as `verifyCommit` tests it. -/
structure ProtoCommitSig where
  blockIdFlag : Int
  validatorAddress : List Nat
  timestamp : Option PbTimestamp
  signature : List Nat
deriving DecidableEq

/-- `ProtoCommit` of `commit.ts`; `blockId` optional because
`verifyCommit` guards its presence. -/
structure ProtoCommit where
  height : Int
  round : Int
  blockId : Option ProtoBlockID
  signatures : List ProtoCommitSig
deriving DecidableEq

/-- `version` record of a header (`block`/`app` optional). -/
structure Consensus where
  block : Option Int
  app : Option Int
deriving DecidableEq

/-- `ProtoHeader` of `commit.ts`. -/
structure ProtoHeader where
  version : Option Consensus
  chainId : String
  height : Int
  time : Option PbTimestamp
  lastBlockId : Option ProtoBlockID
  lastCommitHash : List Nat
  dataHash : List Nat
  validatorsHash : List Nat
  nextValidatorsHash : List Nat
  consensusHash : List Nat
  appHash : List Nat
  lastResultsHash : List Nat
  evidenceHash : List Nat
  proposerAddress : List Nat
deriving DecidableEq

/-- `SignedHeader`; both fields optional, as `verifyCommit` checks
`!sh?.header || !sh?.commit`. -/
structure SignedHeader where
  header : Option ProtoHeader
  commit : Option ProtoCommit
deriving DecidableEq

/-! ## `lightclient.ts`: commit verification. -/

/-- `VerifyOutcome` of `lightclient.ts`. -/
structure VerifyOutcome where
  ok : Bool
  quorum : Bool
  signedPower : Int
  totalPower : Int
  headerTime : Option PbTimestamp
  appHash : List Nat
  blockIdHash : List Nat
  unknownValidators : List String
  invalidSignatures : List String
  countedSignatures : Nat
deriving DecidableEq

/-- `hasTwoThirds` of `lightclient.ts`: `signed * 3n > total * 2n`. -/
def hasTwoThirds (signed total : Int) : Bool :=
  signed * 3 > total * 2

/-- `makePrecommitSignBytesProto` of `lightclient.ts`: a single `0x71`
byte followed by the canonical vote encoding. -/
def makePrecommitSignBytesProto (chainId : String) (height round : Int)
    (blockIdHash : List Nat) (partsTotal : Int) (partsHash : List Nat)
    (timestamp : Option PbTimestamp) : List Nat :=
  let psh : CanonicalPartSetHeader := { total := partsTotal, hash := partsHash }
  let bid : CanonicalBlockID := { hash := blockIdHash, partSetHeader := some psh }
  let vote : CanonicalVote :=
    { type := 2, height := height, round := round, blockId := some bid,
      timestamp := timestamp, chainId := chainId }
  113 :: vote.encode

/-- The `setByAddrHex` map-building loop of `verifyCommit` (lines 86-91):
an association list keyed by uppercase hex address, throwing on a
duplicate. -/
def buildSetByAddr : List Validator → List (String × Validator) →
    Except String (List (String × Validator))
  | [], acc => .ok acc
  | v :: rest, acc =>
      let hex := hexUpper v.address
      if (List.lookup hex acc).isSome then
        .error ("Duplicate validator address in set: " ++ hex)
      else buildSetByAddr rest (acc ++ [(hex, v)])

/-- One recorded invocation of `crypto.subtle.verify`: the address it was
attributed to, the key, the raw signature, the per-signature timestamp,
and the message bytes passed to the primitive. -/
structure TraceEntry (K : Type) where
  addr : String
  key : K
  sigBytes : List Nat
  ts : Option PbTimestamp
  msg : List Nat
deriving DecidableEq

/-- Accumulator of the per-signature loop of `verifyCommit`,
with `calls` recording the `crypto.subtle.verify` invocations. -/
structure SigState (K : Type) where
  signedPower : Int
  unknown : List String
  invalid : List String
  counted : Nat
  calls : List (TraceEntry K)
deriving DecidableEq

/-- One iteration of the per-signature loop of `verifyCommit`
(lines 116-173).  `oracle` is `crypto.subtle.verify`; `none` models a
rejected promise, which the `try`/`catch` turns into `ok = false`. -/
def processSig {K : Type} (chainId : String) (heightBig roundBig : Int)
    (blockIdHash : List Nat) (partsTotal : Int) (partsHash : List Nat)
    (setByAddrHex : List (String × Validator))
    (cryptoIndex : List (String × K))
    (oracle : K → List Nat → List Nat → Option Bool)
    (st : SigState K) (s : ProtoCommitSig) : SigState K :=
  if s.blockIdFlag ≠ 2 then st
  else
    let addrHex := hexUpper s.validatorAddress
    match List.lookup addrHex setByAddrHex with
    | none => { st with unknown := st.unknown ++ [addrHex] }
    | some v =>
        if s.signature = [] then { st with invalid := st.invalid ++ [addrHex] }
        else
          let st1 : SigState K := { st with counted := st.counted + 1 }
          let signBytes := makePrecommitSignBytesProto chainId heightBig roundBig
            blockIdHash partsTotal partsHash s.timestamp
          match List.lookup addrHex cryptoIndex with
          | none => { st1 with invalid := st1.invalid ++ [addrHex] }
          | some key =>
              let st2 : SigState K :=
                { st1 with calls := st1.calls ++
                    [{ addr := addrHex, key := key, sigBytes := s.signature,
                       ts := s.timestamp, msg := signBytes }] }
              let ok := match oracle key s.signature signBytes with
                        | some b => b
                        | none => false
              if !ok then { st2 with invalid := st2.invalid ++ [addrHex] }
              else { st2 with signedPower := st2.signedPower + v.votingPower.getD 0 }

/-- `verifyCommit` of `lightclient.ts`, additionally returning the list of
`crypto.subtle.verify` invocations it performed. -/
def verifyCommitTraced {K : Type} (sh : SignedHeader) (vset : ValidatorSet)
    (cryptoIndex : List (String × K))
    (oracle : K → List Nat → List Nat → Option Bool) :
    Except String (VerifyOutcome × List (TraceEntry K)) :=
  match sh.header, sh.commit with
  | some header, some commit =>
      if header.height ≠ commit.height then
        .error "Header/commit height mismatch"
      else
        let totalPower := vset.totalVotingPower.getD 0
        if vset.validators = [] then .error "ValidatorSet has no validators"
        else if totalPower ≤ 0 then .error "ValidatorSet total power must be positive"
        else
          match buildSetByAddr vset.validators [] with
          | .error e => .error e
          | .ok setByAddrHex =>
              match commit.blockId with
              | none => .error "Commit missing BlockID"
              | some bid =>
                  if bid.hash = [] then .error "Commit BlockID hash is missing"
                  else
                    match bid.partSetHeader with
                    | none => .error "Commit PartSetHeader is missing"
                    | some psh =>
                        if psh.hash = [] then .error "Commit PartSetHeader hash is missing"
                        else if psh.total < 0 then .error "Commit PartSetHeader total is invalid"
                        else
                          let st := commit.signatures.foldl
                            (processSig header.chainId header.height commit.round
                              bid.hash psh.total psh.hash setByAddrHex cryptoIndex oracle)
                            { signedPower := 0, unknown := [], invalid := [],
                              counted := 0, calls := [] }
                          let quorum := hasTwoThirds st.signedPower totalPower
                          .ok ({ ok := quorum, quorum := quorum,
                                 signedPower := st.signedPower,
                                 totalPower := totalPower,
                                 headerTime := header.time,
                                 appHash := header.appHash,
                                 blockIdHash := bid.hash,
                                 unknownValidators := st.unknown,
                                 invalidSignatures := st.invalid,
                                 countedSignatures := st.counted }, st.calls)
  | _, _ => .error "SignedHeader missing header/commit"

/-- `verifyCommit` of `lightclient.ts` (outcome only). -/
def verifyCommit {K : Type} (sh : SignedHeader) (vset : ValidatorSet)
    (cryptoIndex : List (String × K))
    (oracle : K → List Nat → List Nat → Option Bool) :
    Except String VerifyOutcome :=
  (verifyCommitTraced sh vset cryptoIndex oracle).map Prod.fst

/-! ## `validators.ts`: validator-set import.

Two importer variants live in the repository: `importValidators` of
`validators.ts` (flat input object, returns `{ proto, cryptoIndex }`) and
the JSON-RPC-envelope variant (here `importValidatorsRPC`) that checks
`count`/`total` pagination and returns the `{ height, totalPower,
validators }` record.  `sha256` stands for `crypto.subtle.digest` and
`importKey` for `crypto.subtle.importKey` — `none` models a rejected
promise, which neither variant catches. -/

/-- `pub_key` JSON object. -/
structure PubKeyJson where
  type : String
  value : String
deriving DecidableEq

/-- One entry of the `/validators` JSON list.  `power` is the legacy
field read by `Number(v.voting_power) || Number(v.power)`. -/
structure ValidatorEntryJson where
  address : String
  pub_key : Option PubKeyJson
  voting_power : String
  power : Option String
  proposer_priority : String
deriving DecidableEq

/-- The inner `/validators` result object. -/
structure ValidatorResultJson where
  block_height : String
  validators : List ValidatorEntryJson
  count : String
  total : String
deriving DecidableEq

/-- The JSON-RPC `/validators` response envelope. -/
structure ValidatorResponse where
  result : Option ValidatorResultJson
deriving DecidableEq

/-- Output of `importValidators` of `validators.ts`. -/
structure ImportValidatorsOut (K : Type) where
  proto : ValidatorSet
  cryptoIndex : List (String × K)
deriving DecidableEq

/-- The per-entry loop of `importValidators` of `validators.ts`
(lines 18-75). -/
def importValidatorsLoop {K : Type} (sha256 : List Nat → List Nat)
    (importKey : List Nat → Option K) :
    List ValidatorEntryJson → List String → List (String × K) →
    List Validator → Int → Except String (ImportValidatorsOut K)
  | [], _, idx, protos, counted =>
      .ok { proto := { validators := protos, proposer := none,
                       totalVotingPower := some counted },
            cryptoIndex := idx }
  | v :: rest, seen, idx, protos, counted =>
      if v.address.length ≠ 40 then
        .error ("Validator address must be 40 HEX digits, provided: " ++ v.address)
      else
        match v.pub_key with
        | none => .error "Validator key object is invalid"
        | some pk =>
            if pk.type = "" ∨ pk.value = "" then .error "Validator key object is invalid"
            else if pk.type ≠ "tendermint/PubKeyEd25519" then
              .error ("Key of type " ++ pk.type ++ " is currently unsupported.")
            else
              let rawKey := base64ToUint8Array pk.value
              match importKey rawKey with
              | none => .error "importKey failed"
              | some key =>
                  let sha := sha256 rawKey
                  let addrHex := hexUpper (sha.take 20)
                  if addrHex ≠ toUpperCase v.address then
                    .error ("Address " ++ v.address ++ " does not match its public key")
                  else if seen.contains addrHex then
                    .error "Duplicate entry in validators set"
                  else
                    let powerNum :=
                      let a := jsNumberOfString v.voting_power
                      if jsTruthy a then a else jsNumberOfOptString v.power
                    match powerNum with
                    | none => .error ("Invalid voting power for " ++ addrHex)
                    | some q =>
                        if q.isInt = false ∨ q.ltInt 1 then
                          .error ("Invalid voting power for " ++ addrHex)
                        else
                          importValidatorsLoop sha256 importKey rest
                            (seen ++ [addrHex]) (idx ++ [(addrHex, key)])
                            (protos ++ [{ address := sha.take 20,
                                          pubKeyBytes := rawKey,
                                          pubKeyType := "ed25519",
                                          votingPower := some q.toInt,
                                          proposerPriority := 0 }])
                            (counted + q.toInt)

/-- `importValidators` of `validators.ts`. -/
def importValidators {K : Type} (resp : ValidatorResultJson)
    (sha256 : List Nat → List Nat) (importKey : List Nat → Option K) :
    Except String (ImportValidatorsOut K) :=
  if resp.validators = [] then .error "Missing validators"
  else importValidatorsLoop sha256 importKey resp.validators [] [] [] 0

/-- A validator of the RPC-envelope importer variant: the opaque verifier
handle, the uppercase hex address and the voting power (a JS number). -/
structure ValidatorT (K : Type) where
  key : K
  address : String
  power : JsNumber
deriving DecidableEq

/-- The validator set returned by the RPC-envelope importer variant. -/
structure ValidatorSetT (K : Type) where
  height : Int
  totalPower : Option JsNumber
  validators : List (ValidatorT K)
deriving DecidableEq

/-- The per-entry loop of the RPC-envelope `importValidators` variant
(its `countedPower` accumulates with floating-point addition). -/
def importValidatorsRPCLoop {K : Type} (sha256 : List Nat → List Nat)
    (importKey : List Nat → Option K) :
    List ValidatorEntryJson → List String → List (ValidatorT K) →
    Option JsNumber → Except String (Option JsNumber × List (ValidatorT K))
  | [], _, vals, counted => .ok (counted, vals)
  | v :: rest, seen, vals, counted =>
      if v.address.length ≠ 40 then
        .error ("Validator address must be 40 HEX digits, provided: " ++ v.address)
      else
        match v.pub_key with
        | none => .error "Validator key object is invalid"
        | some pk =>
            if pk.type = "" ∨ pk.value = "" then .error "Validator key object is invalid"
            else if pk.type ≠ "tendermint/PubKeyEd25519" then
              .error ("Key of type " ++ pk.type ++ " is currently unsupported. ")
            else
              let rawKey := base64ToUint8Array pk.value
              match importKey rawKey with
              | none => .error "importKey failed"
              | some key =>
                  let calculatedAddress := hexUpper ((sha256 rawKey).take 20)
                  if calculatedAddress ≠ toUpperCase v.address then
                    .error ("Address " ++ v.address ++ " does not match its public key")
                  else if seen.contains calculatedAddress then
                    .error "Duplicate entry in validators set"
                  else
                    match jsNumberOfString v.voting_power with
                    | none => .error ("Invalid voting power for " ++ calculatedAddress)
                    | some q =>
                        if q.isInt = false ∨ q.ltInt 1 then
                          .error ("Invalid voting power for " ++ calculatedAddress)
                        else
                          importValidatorsRPCLoop sha256 importKey rest
                            (seen ++ [calculatedAddress])
                            (vals ++ [{ key := key, address := calculatedAddress,
                                        power := q }])
                            (jsAdd counted q)

/-- The RPC-envelope `importValidators` variant, with its
count/total pagination check. -/
def importValidatorsRPC {K : Type} (resp : ValidatorResponse)
    (sha256 : List Nat → List Nat) (importKey : List Nat → Option K) :
    Except String (ValidatorSetT K) :=
  match resp.result with
  | none => .error "Missing validators from response object"
  | some r =>
      if r.validators = [] then .error "Missing validators from response object"
      else if r.count = "" ∨ r.total = "" then
        .error "Missing validator count and total from response object"
      else if r.block_height = "" then .error "Missing block height"
      else
        let total := jsNumberOfString r.total
        if jsNeq total (jsNumberOfString r.count) ∨ jsLt total 2 then
          .error "The response object must not paginate"
        else
          match parseBigInt r.block_height with
          | none => .error "Cannot convert block height to BigInt"
          | some height =>
              match importValidatorsRPCLoop sha256 importKey r.validators [] [] (some { m := 0, e := 0 }) with
              | .error e => .error e
              | .ok (counted, vals) =>
                  if vals.length < 2 ∨ jsNeq (some (JsNumber.ofNat vals.length)) total then
                    .error "Failed to parse enough validators"
                  else .ok { height := height, totalPower := counted, validators := vals }

/-! ## `commit.ts`: commit import. -/

/-- `parts` JSON object of a block id. -/
structure PartsJson where
  total : Int
  hash : String
deriving DecidableEq

/-- `block_id`/`last_block_id` JSON object; `parts` optional because the
importer guards its presence. -/
structure BlockIdJson where
  hash : String
  parts : Option PartsJson
deriving DecidableEq

/-- `version` JSON object (`block`/`app` decimal strings; the importer
treats an empty string as absent). -/
structure VersionJson where
  block : String
  app : String
deriving DecidableEq

/-- `header` JSON object of `/commit`. -/
structure HeaderJson where
  version : Option VersionJson
  chain_id : String
  height : String
  time : Option String
  last_block_id : Option BlockIdJson
  last_commit_hash : String
  data_hash : String
  validators_hash : String
  next_validators_hash : String
  consensus_hash : String
  app_hash : String
  last_results_hash : String
  evidence_hash : String
  proposer_address : String
deriving DecidableEq

/-- One signature entry of the `/commit` JSON; `block_id_flag` is `none`
when the field is not a number. -/
structure CommitSigJson where
  block_id_flag : Option Int
  validator_address : String
  timestamp : Option String
  signature : Option String
deriving DecidableEq

/-- `commit` JSON object of `/commit`. -/
structure CommitJsonBody where
  height : String
  round : Int
  block_id : Option BlockIdJson
  signatures : List CommitSigJson
deriving DecidableEq

/-- `signed_header` JSON object. -/
structure SignedHeaderJson where
  header : Option HeaderJson
  commit : Option CommitJsonBody
deriving DecidableEq

/-- `result` JSON object of the `/commit` response. -/
structure CommitResultJson where
  signed_header : Option SignedHeaderJson
deriving DecidableEq

/-- The `/commit` JSON-RPC response envelope. -/
structure CommitResponse where
  result : Option CommitResultJson
deriving DecidableEq

/-- Days from the civil epoch 1970-01-01 for a Gregorian date
(standard days-from-civil computation). -/
def daysFromCivil (y m d : Int) : Int :=
  let y := y - (if m ≤ 2 then 1 else 0)
  let era := (if y ≥ 0 then y else y - 399) / 400
  let yoe := y - era * 400
  let mp := (m + 9) % 12
  let doy := (153 * mp + 2) / 5 + d - 1
  let doe := yoe * 365 + yoe / 4 - yoe / 100 + doy
  era * 146097 + doe - 719468

/-- Whether a year is a Gregorian leap year. -/
def isLeapYear (y : Int) : Bool :=
  (y % 4 = 0 ∧ y % 100 ≠ 0) ∨ y % 400 = 0

/-- Number of days in a month. -/
def daysInMonth (y m : Int) : Int :=
  if m = 2 then (if isLeapYear y then 29 else 28)
  else if m = 4 ∨ m = 6 ∨ m = 9 ∨ m = 11 then 30
  else 31

/-- Numeric value of a fixed-width digit run; `none` if any character is
not a digit. -/
def fixedDigits (cs : List Char) : Option Nat :=
  digitsToNat cs

/-- `parseRFC3339ToTimestamp` of `commit.ts`.  The `Date` constructor is a
platform primitive; modelled from the spec (§3): whole-second UTC epoch
from the date/time digits, nanoseconds from the fractional digits
zero-right-padded to 9 and truncated to 9; an unparseable string is an
invalid date (`none`, which the importer turns into a thrown error). -/
def parseRFC3339ToTimestamp (s : String) : Option PbTimestamp :=
  match s.data with
  | y1 :: y2 :: y3 :: y4 :: '-' :: m1 :: m2 :: '-' :: d1 :: d2 :: 'T' ::
    h1 :: h2 :: ':' :: mi1 :: mi2 :: ':' :: s1 :: s2 :: rest =>
      match fixedDigits [y1, y2, y3, y4], fixedDigits [m1, m2], fixedDigits [d1, d2],
            fixedDigits [h1, h2], fixedDigits [mi1, mi2], fixedDigits [s1, s2] with
      | some y, some mo, some d, some h, some mi, some sec =>
          if 1 ≤ mo ∧ mo ≤ 12 ∧ 1 ≤ d ∧ (d : Int) ≤ daysInMonth y mo ∧
             h ≤ 23 ∧ mi ≤ 59 ∧ sec ≤ 59 then
            let frac : Option (List Char) :=
              match rest with
              | ['Z'] => some []
              | 'Z' :: _ => none
              | '.' :: more =>
                  match more.span Char.isDigit with
                  | (ds, ['Z']) => if ds = [] then none else some ds
                  | _ => none
              | _ => none
            match frac with
            | none => none
            | some ds =>
                match fixedDigits ds with
                | none => none
                | some _ =>
                    let seconds : Int := daysFromCivil y mo d * 86400 +
                      (h : Int) * 3600 + (mi : Int) * 60 + (sec : Int)
                    let n := min ds.length 9
                    let nanos : Int :=
                      if n = 0 then 0
                      else ((fixedDigits ((ds ++ List.replicate (9 - n) '0').take 9)).getD 0 : Int)
                    some { seconds := seconds, nanos := nanos }
          else none
      | _, _, _, _, _, _ => none
  | _ => none

/-- The seven 32-byte header hash checks of `importCommit` share this
helper (`assertLen`). -/
def assertLen (name : String) (bytes : List Nat) (expect : Nat) :
    Except String (List Nat) :=
  if bytes.length ≠ expect then
    .error (name ++ " must be " ++ toString expect ++ " bytes, got " ++
      toString bytes.length)
  else .ok bytes

/-- Hex-decode a block-id JSON object into a `ProtoBlockID`
(`importCommit` does this for `last_block_id` and `commit.block_id`). -/
def importBlockId (label : String) (hash : String) (parts : PartsJson) :
    Except String ProtoBlockID :=
  match assertLen (label ++ ".hash") (hexToUint8Array hash) 32 with
  | .error e => .error e
  | .ok hashBytes =>
      match assertLen (label ++ ".parts.hash") (hexToUint8Array parts.hash) 32 with
      | .error e => .error e
      | .ok partsBytes =>
          if parts.total < 0 then .error ("Invalid " ++ label ++ ".parts.total")
          else .ok { hash := hashBytes,
                     partSetHeader := some { total := parts.total, hash := partsBytes } }

/-- The signature-mapping loop of `importCommit` (lines 178-201). -/
def importSignatures : List CommitSigJson → Nat → Except String (List ProtoCommitSig)
  | [], _ => .ok []
  | s :: rest, i =>
      match s.block_id_flag with
      | none => .error ("signatures[" ++ toString i ++ "].block_id_flag must be a number")
      | some flag =>
          if s.validator_address = "" then
            .error ("signatures[" ++ toString i ++ "].validator_address missing")
          else
            match assertLen ("signatures[" ++ toString i ++ "].validator_address")
              (hexToUint8Array s.validator_address) 20 with
            | .error e => .error e
            | .ok addrBytes =>
                match s.signature with
                | none => .error ("signatures[" ++ toString i ++ "].signature missing")
                | some sigStr =>
                    if sigStr = "" then
                      .error ("signatures[" ++ toString i ++ "].signature missing")
                    else
                      match assertLen ("signatures[" ++ toString i ++ "].signature")
                        (base64ToUint8Array sigStr) 64 with
                      | .error e => .error e
                      | .ok sigBytes =>
                          let ts : Except String (Option PbTimestamp) :=
                            match s.timestamp with
                            | none => .ok none
                            | some t =>
                                if t = "" then .ok none
                                else
                                  match parseRFC3339ToTimestamp t with
                                  | none => .error ("Invalid RFC3339 time: " ++ t)
                                  | some pt => .ok (some pt)
                          match ts with
                          | .error e => .error e
                          | .ok tsv =>
                              match importSignatures rest (i + 1) with
                              | .error e => .error e
                              | .ok tail =>
                                  .ok ({ blockIdFlag := flag,
                                         validatorAddress := addrBytes,
                                         timestamp := tsv,
                                         signature := sigBytes } :: tail)

/-- `importCommit` of `commit.ts`. -/
def importCommit (resp : CommitResponse) : Except String SignedHeader :=
  match resp.result with
  | none => .error "Missing signed_header in response"
  | some res =>
      match res.signed_header with
      | none => .error "Missing signed_header in response"
      | some sh =>
          match sh.header with
          | none => .error "Missing header"
          | some h =>
              match sh.commit with
              | none => .error "Missing commit"
              | some c =>
                  if h.height = "" then .error "Missing header.height"
                  else if c.height = "" then .error "Missing commit.height"
                  else
                    match parseBigInt h.height with
                    | none => .error "Cannot convert header.height to BigInt"
                    | some headerHeight =>
                        match parseBigInt c.height with
                        | none => .error "Cannot convert commit.height to BigInt"
                        | some commitHeight =>
                            if headerHeight ≠ commitHeight then
                              .error "height mismatch header/commit"
                            else if c.round < 0 then .error "Invalid commit.round"
                            else
                              let versionE : Except String (Option Consensus) :=
                                match h.version with
                                | none => .ok none
                                | some v =>
                                    let blockE : Except String (Option Int) :=
                                      if v.block = "" then .ok none
                                      else match parseBigInt v.block with
                                           | none => .error "Cannot convert version.block to BigInt"
                                           | some b => .ok (some b)
                                    let appE : Except String (Option Int) :=
                                      if v.app = "" then .ok none
                                      else match parseBigInt v.app with
                                           | none => .error "Cannot convert version.app to BigInt"
                                           | some a => .ok (some a)
                                    match blockE, appE with
                                    | .error e, _ => .error e
                                    | _, .error e => .error e
                                    | .ok b, .ok a => .ok (some { block := b, app := a })
                              match versionE with
                              | .error e => .error e
                              | .ok version =>
                                  match h.last_block_id with
                                  | none => .error "Invalid last_block_id"
                                  | some lbi =>
                                      if lbi.hash = "" then .error "Invalid last_block_id"
                                      else
                                        match lbi.parts with
                                        | none => .error "Invalid last_block_id"
                                        | some lparts =>
                                            match importBlockId "last_block_id" lbi.hash lparts with
                                            | .error e => .error e
                                            | .ok lastBlockId =>
                                                match
                                                  assertLen "last_commit_hash" (hexToUint8Array h.last_commit_hash) 32,
                                                  assertLen "data_hash" (hexToUint8Array h.data_hash) 32,
                                                  assertLen "validators_hash" (hexToUint8Array h.validators_hash) 32,
                                                  assertLen "next_validators_hash" (hexToUint8Array h.next_validators_hash) 32,
                                                  assertLen "consensus_hash" (hexToUint8Array h.consensus_hash) 32,
                                                  assertLen "last_results_hash" (hexToUint8Array h.last_results_hash) 32,
                                                  assertLen "evidence_hash" (hexToUint8Array h.evidence_hash) 32 with
                                                | .ok lastCommitHash, .ok dataHash, .ok validatorsHash,
                                                  .ok nextValidatorsHash, .ok consensusHash,
                                                  .ok lastResultsHash, .ok evidenceHash =>
                                                    let appHash := hexToUint8Array h.app_hash
                                                    if h.proposer_address = "" then .error "Missing proposer_address"
                                                    else
                                                      match assertLen "proposer_address" (hexToUint8Array h.proposer_address) 20 with
                                                      | .error e => .error e
                                                      | .ok proposerAddress =>
                                                          match h.time with
                                                          | none => .error "Missing header.time"
                                                          | some timeStr =>
                                                              if timeStr = "" then .error "Missing header.time"
                                                              else
                                                                match parseRFC3339ToTimestamp timeStr with
                                                                | none => .error ("Invalid RFC3339 time: " ++ timeStr)
                                                                | some time =>
                                                                    match c.block_id with
                                                                    | none => .error "Invalid commit.block_id"
                                                                    | some cbi =>
                                                                        if cbi.hash = "" then .error "Invalid commit.block_id"
                                                                        else
                                                                          match cbi.parts with
                                                                          | none => .error "Invalid commit.block_id"
                                                                          | some cparts =>
                                                                              match importBlockId "commit.block_id" cbi.hash cparts with
                                                                              | .error e => .error e
                                                                              | .ok commitBlockId =>
                                                                                  if c.signatures = [] then .error "Commit has no signatures"
                                                                                  else
                                                                                    match importSignatures c.signatures 0 with
                                                                                    | .error e => .error e
                                                                                    | .ok signatures =>
                                                                                        .ok { header := some
                                                                                                { version := version,
                                                                                                  chainId := h.chain_id,
                                                                                                  height := headerHeight,
                                                                                                  time := some time,
                                                                                                  lastBlockId := some lastBlockId,
                                                                                                  lastCommitHash := lastCommitHash,
                                                                                                  dataHash := dataHash,
                                                                                                  validatorsHash := validatorsHash,
                                                                                                  nextValidatorsHash := nextValidatorsHash,
                                                                                                  consensusHash := consensusHash,
                                                                                                  appHash := appHash,
                                                                                                  lastResultsHash := lastResultsHash,
                                                                                                  evidenceHash := evidenceHash,
                                                                                                  proposerAddress := proposerAddress },
                                                                                              commit := some
                                                                                                { height := headerHeight,
                                                                                                  round := c.round,
                                                                                                  blockId := some commitBlockId,
                                                                                                  signatures := signatures } }
                                                | .error e, _, _, _, _, _, _ => .error e
                                                | _, .error e, _, _, _, _, _ => .error e
                                                | _, _, .error e, _, _, _, _ => .error e
                                                | _, _, _, .error e, _, _, _ => .error e
                                                | _, _, _, _, .error e, _, _ => .error e
                                                | _, _, _, _, _, .error e, _ => .error e
                                                | _, _, _, _, _, _, .error e => .error e

/-! ## Structural lemmas about the verifier. -/

/-- The initial accumulator of the per-signature loop. -/
def initSigState (K : Type) : SigState K :=
  { signedPower := 0, unknown := [], invalid := [], counted := 0, calls := [] }

/-- Inversion: a successful `verifyCommitTraced` run passed every guard and
its outcome is assembled from the per-signature fold. -/
theorem verifyCommitTraced_ok_shape {K : Type} {sh : SignedHeader} {vset : ValidatorSet}
    {idx : List (String × K)} {orc : K → List Nat → List Nat → Option Bool}
    {O : VerifyOutcome} {tr : List (TraceEntry K)}
    (h : verifyCommitTraced sh vset idx orc = .ok (O, tr)) :
    ∃ header commit bid psh m,
      sh.header = some header ∧ sh.commit = some commit ∧
      buildSetByAddr vset.validators [] = .ok m ∧
      commit.blockId = some bid ∧ bid.partSetHeader = some psh ∧
      (let st := commit.signatures.foldl
          (processSig header.chainId header.height commit.round
            bid.hash psh.total psh.hash m idx orc) (initSigState K)
       O = { ok := hasTwoThirds st.signedPower (vset.totalVotingPower.getD 0),
             quorum := hasTwoThirds st.signedPower (vset.totalVotingPower.getD 0),
             signedPower := st.signedPower,
             totalPower := vset.totalVotingPower.getD 0,
             headerTime := header.time,
             appHash := header.appHash,
             blockIdHash := bid.hash,
             unknownValidators := st.unknown,
             invalidSignatures := st.invalid,
             countedSignatures := st.counted } ∧ tr = st.calls) := by
  cases hh : sh.header with
  | none => rw [verifyCommitTraced, hh] at h; cases sh.commit <;> simp at h
  | some header =>
  cases hc : sh.commit with
  | none => rw [verifyCommitTraced, hh, hc] at h; simp at h
  | some commit =>
  rw [verifyCommitTraced, hh, hc] at h
  simp only [] at h
  split at h
  · simp at h
  · split at h
    · simp at h
    · split at h
      · simp at h
      · split at h
        next e hm => simp at h
        next m hm =>
          split at h
          · simp at h
          next bid hbid =>
            split at h
            · simp at h
            · split at h
              · simp at h
              next psh hpsh =>
                split at h
                · simp at h
                · split at h
                  · simp at h
                  · simp only [Except.ok.injEq, Prod.mk.injEq] at h
                    exact ⟨header, commit, bid, psh, m, rfl, rfl, hm, hbid, hpsh,
                      h.1.symm, h.2.symm⟩

/-- A successful `verifyCommit` comes from a successful traced run. -/
theorem verifyCommit_ok_iff {K : Type} {sh : SignedHeader} {vset : ValidatorSet}
    {idx : List (String × K)} {orc : K → List Nat → List Nat → Option Bool}
    {O : VerifyOutcome} (h : verifyCommit sh vset idx orc = .ok O) :
    ∃ tr, verifyCommitTraced sh vset idx orc = .ok (O, tr) := by
  unfold verifyCommit at h
  cases ht : verifyCommitTraced sh vset idx orc with
  | error e => rw [ht] at h; simp [Except.map] at h
  | ok p =>
      rw [ht] at h
      obtain ⟨O', tr⟩ := p
      simp only [Except.map, Except.ok.injEq] at h
      subst h
      exact ⟨tr, rfl⟩

/-- Decidable equality of `Except` results, used to evaluate the
embedding on concrete inputs. -/
instance {ε α : Type} [DecidableEq ε] [DecidableEq α] : DecidableEq (Except ε α) :=
  fun x y =>
    match x, y with
    | .error a, .error b =>
        if h : a = b then .isTrue (by simp [h]) else .isFalse (by simp [h])
    | .ok a, .ok b =>
        if h : a = b then .isTrue (by simp [h]) else .isFalse (by simp [h])
    | .error _, .ok _ => .isFalse (by simp)
    | .ok _, .error _ => .isFalse (by simp)

/-! ## Shared concrete fixtures used by witnesses and counterexamples. -/

/-- A 20-byte validator address. -/
def fxAddrA : List Nat := 1 :: List.replicate 19 0

/-- Another 20-byte validator address. -/
def fxAddrB : List Nat := 2 :: List.replicate 19 0

/-- A minimal header at height 5. -/
def fxHeader : ProtoHeader :=
  { version := none, chainId := "c", height := 5, time := none,
    lastBlockId := none, lastCommitHash := [], dataHash := [],
    validatorsHash := [], nextValidatorsHash := [], consensusHash := [],
    appHash := [], lastResultsHash := [], evidenceHash := [],
    proposerAddress := [] }

/-- A minimal commit block id with non-empty hashes. -/
def fxBlockId : ProtoBlockID :=
  { hash := [7], partSetHeader := some { total := 1, hash := [8] } }

/-- A commit at height 5 with the given signatures. -/
def fxCommit (sigs : List ProtoCommitSig) : ProtoCommit :=
  { height := 5, round := 0, blockId := some fxBlockId, signatures := sigs }

/-- A signed header around `fxCommit`. -/
def fxSH (sigs : List ProtoCommitSig) : SignedHeader :=
  { header := some fxHeader, commit := some (fxCommit sigs) }

/-- A validator with the given address and power. -/
def fxVal (addr : List Nat) (p : Int) : Validator :=
  { address := addr, pubKeyBytes := [], pubKeyType := "ed25519",
    votingPower := some p, proposerPriority := 0 }

/-- A Commit-flagged signature from the given address. -/
def fxSig (addr : List Nat) (sigBytes : List Nat) : ProtoCommitSig :=
  { blockIdFlag := 2, validatorAddress := addr, timestamp := none,
    signature := sigBytes }

/-! ## C1 — quorum rule and `ok = quorum`. -/

/-- C1: for every `VerifyOutcome` the verifier returns, `quorum` holds
exactly when `signedPower * 3 > totalPower * 2` in exact unbounded integer
arithmetic, and `ok` equals `quorum` (irrespective of
`invalidSignatures`). -/
theorem c1_quorum_rule {K : Type} {sh : SignedHeader} {vset : ValidatorSet}
    {idx : List (String × K)} {orc : K → List Nat → List Nat → Option Bool}
    {O : VerifyOutcome} (h : verifyCommit sh vset idx orc = .ok O) :
    (O.quorum = true ↔ O.signedPower * 3 > O.totalPower * 2) ∧ O.ok = O.quorum := by
  obtain ⟨tr, ht⟩ := verifyCommit_ok_iff h
  obtain ⟨hd, cm, bid, psh, m, _, _, _, _, _, hO, _⟩ := verifyCommitTraced_ok_shape ht
  subst hO
  refine ⟨?_, rfl⟩
  simp [hasTwoThirds]

/-- Witness for C1 at a concrete input: one validator of power 1 and a
single non-Commit vote; the outcome has `signedPower = 0`,
`totalPower = 1`, no quorum, and `ok = quorum`. -/
def c1FixSH : SignedHeader :=
  fxSH [{ blockIdFlag := 1, validatorAddress := fxAddrA, timestamp := none,
          signature := [] }]

/-- The validator set for the C1 witness. -/
def c1FixVSet : ValidatorSet :=
  { validators := [fxVal fxAddrA 1], proposer := none, totalVotingPower := some 1 }

/-- The outcome the C1 witness run produces. -/
def c1FixOut : VerifyOutcome :=
  { ok := false, quorum := false, signedPower := 0, totalPower := 1,
    headerTime := none, appHash := [], blockIdHash := [7],
    unknownValidators := [], invalidSignatures := [], countedSignatures := 0 }

theorem c1_quorum_rule_witness :
    verifyCommit c1FixSH c1FixVSet ([] : List (String × Unit)) (fun _ _ _ => some true) =
      .ok c1FixOut ∧
    ((c1FixOut.quorum = true ↔ c1FixOut.signedPower * 3 > c1FixOut.totalPower * 2) ∧
      c1FixOut.ok = c1FixOut.quorum) :=
  ⟨by decide,
   c1_quorum_rule
     (by decide :
       verifyCommit c1FixSH c1FixVSet ([] : List (String × Unit)) (fun _ _ _ => some true) =
         Except.ok c1FixOut)⟩

/-! ## C2 — signed message bytes. -/

/-- Any entry the per-signature step adds to the call trace carries the
canonical sign-bytes for that signature's timestamp. -/
theorem processSig_calls_inv {K : Type} {cid : String} {hgt rnd : Int}
    {bh : List Nat} {pt : Int} {ph : List Nat} {m : List (String × Validator)}
    {idx : List (String × K)} {orc : K → List Nat → List Nat → Option Bool}
    (st : SigState K) (s : ProtoCommitSig) (t : TraceEntry K)
    (ht : t ∈ (processSig cid hgt rnd bh pt ph m idx orc st s).calls) :
    t ∈ st.calls ∨
      (t.msg = makePrecommitSignBytesProto cid hgt rnd bh pt ph s.timestamp ∧
        t.ts = s.timestamp) := by
  unfold processSig at ht
  simp only [] at ht
  split at ht
  · exact Or.inl ht
  · split at ht
    · exact Or.inl ht
    · split at ht
      · exact Or.inl ht
      · split at ht
        · exact Or.inl ht
        · split at ht <;>
          · simp only [List.mem_append, List.mem_singleton] at ht
            rcases ht with ht | ht
            · exact Or.inl ht
            · subst ht
              exact Or.inr ⟨rfl, rfl⟩

/-- Fold form of `processSig_calls_inv`. -/
theorem foldl_calls_inv {K : Type} {cid : String} {hgt rnd : Int}
    {bh : List Nat} {pt : Int} {ph : List Nat} {m : List (String × Validator)}
    {idx : List (String × K)} {orc : K → List Nat → List Nat → Option Bool} :
    ∀ (l : List ProtoCommitSig) (st : SigState K),
      (∀ t ∈ st.calls, t.msg = makePrecommitSignBytesProto cid hgt rnd bh pt ph t.ts) →
      ∀ t ∈ (l.foldl (processSig cid hgt rnd bh pt ph m idx orc) st).calls,
        t.msg = makePrecommitSignBytesProto cid hgt rnd bh pt ph t.ts
  | [], st, hst, t, ht => hst t ht
  | s :: rest, st, hst, t, ht => by
      refine foldl_calls_inv rest _ ?_ t ht
      intro u hu
      rcases processSig_calls_inv st s u hu with hu' | ⟨hm, hts⟩
      · exact hst u hu'
      · rw [hm, hts]

/-- C2: every message handed to the Ed25519 primitive is the byte `0x71`
followed by the canonical encoding of the precommit vote
(type 2, header height, commit round, the commit's block id, the
per-signature timestamp, the chain id); when the per-signature timestamp
is absent, the encoded vote contains no timestamp field at all (field 5
is simply not emitted between the block id and the chain id). -/
theorem c2_sign_message {K : Type} {sh : SignedHeader} {vset : ValidatorSet}
    {idx : List (String × K)} {orc : K → List Nat → List Nat → Option Bool}
    {hdr : ProtoHeader} {cm : ProtoCommit} {bid : ProtoBlockID}
    {psh : ProtoPartSetHeader} {O : VerifyOutcome} {tr : List (TraceEntry K)}
    (hh : sh.header = some hdr) (hc : sh.commit = some cm)
    (hb : cm.blockId = some bid) (hp : bid.partSetHeader = some psh)
    (h : verifyCommitTraced sh vset idx orc = .ok (O, tr)) :
    ∀ t ∈ tr,
      t.msg = 113 :: CanonicalVote.encode
        { type := 2, height := hdr.height, round := cm.round,
          blockId := some { hash := bid.hash,
                            partSetHeader := some { total := psh.total, hash := psh.hash } },
          timestamp := t.ts, chainId := hdr.chainId } ∧
      (t.ts = none →
        t.msg = 113 ::
          ((8 :: encodeVarintInt64 2) ++
           (if hdr.height ≠ 0 then 17 :: encodeFixed64 hdr.height else []) ++
           (if cm.round ≠ 0 then 25 :: encodeFixed64 cm.round else []) ++
           (34 :: lenDelim (CanonicalBlockID.encode
              { hash := bid.hash,
                partSetHeader := some { total := psh.total, hash := psh.hash } })) ++
           (if hdr.chainId ≠ "" then 50 :: lenDelim (utf8Bytes hdr.chainId) else []))) := by
  obtain ⟨hdr', cm', bid', psh', m, hh', hc', hm, hb', hp', hO, htr⟩ :=
    verifyCommitTraced_ok_shape h
  rw [hh] at hh'; rw [hc] at hc'
  cases hh'; cases hc'
  rw [hb] at hb'; cases hb'
  rw [hp] at hp'; cases hp'
  intro t ht
  rw [htr] at ht
  have hmsg := foldl_calls_inv cm.signatures (initSigState K) (by intro u hu; cases hu) t ht
  constructor
  · rw [hmsg]; rfl
  · intro hnone
    rw [hmsg, hnone]
    simp [makePrecommitSignBytesProto, CanonicalVote.encode]

/-- A signature from the fixture validator with a dummy 64-byte payload. -/
def c2FixSig : ProtoCommitSig := fxSig fxAddrA (List.replicate 64 9)

/-- The validator set for the C2 witness. -/
def c2FixVSet : ValidatorSet :=
  { validators := [fxVal fxAddrA 1], proposer := none, totalVotingPower := some 1 }

/-- The crypto index for the C2 witness. -/
def c2FixIdx : List (String × Unit) := [(hexUpper fxAddrA, ())]

set_option maxHeartbeats 2000000 in
theorem c2_sign_message_witness :
    verifyCommitTraced (fxSH [c2FixSig]) c2FixVSet c2FixIdx (fun _ _ _ => some true) =
      .ok ({ ok := true, quorum := true, signedPower := 1, totalPower := 1,
             headerTime := none, appHash := [], blockIdHash := [7],
             unknownValidators := [], invalidSignatures := [], countedSignatures := 1 },
           [{ addr := hexUpper fxAddrA, key := (), sigBytes := List.replicate 64 9,
              ts := none,
              msg := makePrecommitSignBytesProto "c" 5 0 [7] 1 [8] none }]) ∧
    (∀ t ∈ [({ addr := hexUpper fxAddrA, key := (), sigBytes := List.replicate 64 9,
               ts := none,
               msg := makePrecommitSignBytesProto "c" 5 0 [7] 1 [8] none } : TraceEntry Unit)],
      t.msg = 113 :: CanonicalVote.encode
        { type := 2, height := fxHeader.height, round := (fxCommit [c2FixSig]).round,
          blockId := some { hash := fxBlockId.hash,
                            partSetHeader := some { total := 1, hash := [8] } },
          timestamp := t.ts, chainId := fxHeader.chainId } ∧
      (t.ts = none →
        t.msg = 113 ::
          ((8 :: encodeVarintInt64 2) ++
           (if fxHeader.height ≠ 0 then 17 :: encodeFixed64 fxHeader.height else []) ++
           (if (fxCommit [c2FixSig]).round ≠ 0 then
              25 :: encodeFixed64 (fxCommit [c2FixSig]).round else []) ++
           (34 :: lenDelim (CanonicalBlockID.encode
              { hash := fxBlockId.hash,
                partSetHeader := some { total := 1, hash := [8] } })) ++
           (if fxHeader.chainId ≠ "" then
              50 :: lenDelim (utf8Bytes fxHeader.chainId) else [])))) := by
  have hyp :
      verifyCommitTraced (fxSH [c2FixSig]) c2FixVSet c2FixIdx (fun _ _ _ => some true) =
        .ok ({ ok := true, quorum := true, signedPower := 1, totalPower := 1,
               headerTime := none, appHash := [], blockIdHash := [7],
               unknownValidators := [], invalidSignatures := [], countedSignatures := 1 },
             [{ addr := hexUpper fxAddrA, key := (), sigBytes := List.replicate 64 9,
                ts := none,
                msg := makePrecommitSignBytesProto "c" 5 0 [7] 1 [8] none }]) := by decide
  refine ⟨hyp, ?_⟩
  exact @c2_sign_message Unit (fxSH [c2FixSig]) c2FixVSet c2FixIdx (fun _ _ _ => some true)
    fxHeader (fxCommit [c2FixSig]) fxBlockId { total := 1, hash := [8] }
    { ok := true, quorum := true, signedPower := 1, totalPower := 1,
      headerTime := none, appHash := [], blockIdHash := [7],
      unknownValidators := [], invalidSignatures := [], countedSignatures := 1 }
    [{ addr := hexUpper fxAddrA, key := (), sigBytes := List.replicate 64 9,
       ts := none,
       msg := makePrecommitSignBytesProto "c" 5 0 [7] 1 [8] none }]
    rfl rfl rfl rfl hyp

/-! ## C4 — what `countedSignatures` counts. -/

/-- The predicate under which the per-signature step increments
`counted`: a Commit flag, a known validator, and a non-empty signature. -/
def countsSig (m : List (String × Validator)) (s : ProtoCommitSig) : Bool :=
  decide (s.blockIdFlag = 2) &&
  (List.lookup (hexUpper s.validatorAddress) m).isSome &&
  decide (s.signature ≠ [])

/-- One step changes `counted` by exactly the `countsSig` indicator. -/
theorem processSig_counted {K : Type} {cid : String} {hgt rnd : Int}
    {bh : List Nat} {pt : Int} {ph : List Nat} {m : List (String × Validator)}
    {idx : List (String × K)} {orc : K → List Nat → List Nat → Option Bool}
    (st : SigState K) (s : ProtoCommitSig) :
    (processSig cid hgt rnd bh pt ph m idx orc st s).counted =
      st.counted + (if countsSig m s then 1 else 0) := by
  unfold processSig countsSig
  simp only []
  split
  next hflag => simp [hflag]
  next hflag =>
    have h2 : s.blockIdFlag = 2 := not_not.mp hflag
    split
    next hl => simp [h2, hl]
    next v hl =>
      split
      next hsig => simp [h2, hl, hsig]
      next hsig =>
        split
        next hk => simp [h2, hl, hsig]
        next k hk => split <;> simp [h2, hl, hsig]

/-- Fold form: `counted` counts exactly the `countsSig` entries. -/
theorem foldl_counted {K : Type} {cid : String} {hgt rnd : Int}
    {bh : List Nat} {pt : Int} {ph : List Nat} {m : List (String × Validator)}
    {idx : List (String × K)} {orc : K → List Nat → List Nat → Option Bool} :
    ∀ (l : List ProtoCommitSig) (st : SigState K),
      (l.foldl (processSig cid hgt rnd bh pt ph m idx orc) st).counted =
        st.counted + (l.filter (countsSig m)).length
  | [], st => by simp
  | s :: rest, st => by
      rw [List.foldl_cons, foldl_counted rest, processSig_counted]
      by_cases hcs : countsSig m s
      · simp [List.filter_cons, hcs]
        omega
      · simp [List.filter_cons, hcs]

/-- `buildSetByAddr` succeeds exactly by appending one keyed entry per
validator, in order. -/
theorem buildSetByAddr_ok_eq :
    ∀ {vs : List Validator} {acc m : List (String × Validator)},
      buildSetByAddr vs acc = .ok m →
      m = acc ++ vs.map (fun v => (hexUpper v.address, v))
  | [], acc, m, h => by
      simp only [buildSetByAddr, Except.ok.injEq] at h
      simp [h.symm]
  | v :: rest, acc, m, h => by
      rw [buildSetByAddr] at h
      split at h
      · simp at h
      · have := buildSetByAddr_ok_eq h
        simpa using this

/-- C4 (amended): `countedSignatures` equals the number of commit
signatures that carry the Commit flag, name a validator of the set, *and*
have a non-empty signature — a Commit-flagged entry of a known validator
with an absent (length-0) signature is *not* counted (it is reported in
`invalidSignatures` instead; see the counterexample). -/
theorem c4_counted_signatures {K : Type} {sh : SignedHeader} {vset : ValidatorSet}
    {idx : List (String × K)} {orc : K → List Nat → List Nat → Option Bool}
    {cm : ProtoCommit} {O : VerifyOutcome} {tr : List (TraceEntry K)}
    (hc : sh.commit = some cm)
    (h : verifyCommitTraced sh vset idx orc = .ok (O, tr)) :
    O.countedSignatures =
      (cm.signatures.filter
        (countsSig (vset.validators.map (fun v => (hexUpper v.address, v))))).length := by
  obtain ⟨hdr', cm', bid', psh', m, hh', hc', hm, hb', hp', hO, htr⟩ :=
    verifyCommitTraced_ok_shape h
  rw [hc] at hc'; cases hc'
  have hmeq := buildSetByAddr_ok_eq hm
  simp only [List.nil_append] at hmeq
  subst hmeq
  rw [hO]
  simp [foldl_counted, initSigState]

/-- The counting rule exactly as the claim states it (refinement
comparison): Commit flag and known validator, with no condition on the
signature bytes. -/
def claimCountedSignatures (cm : ProtoCommit) (vset : ValidatorSet) : Nat :=
  (cm.signatures.filter (fun s =>
    decide (s.blockIdFlag = 2) &&
    (vset.validators.map (fun v => hexUpper v.address)).contains
      (hexUpper s.validatorAddress))).length

/-- A Commit-flagged signature from the known fixture validator with an
absent (length-0) signature. -/
def c4FixSig : ProtoCommitSig :=
  { blockIdFlag := 2, validatorAddress := fxAddrA, timestamp := none, signature := [] }

/-- Validator set for the C4 counterexample. -/
def c4FixVSet : ValidatorSet :=
  { validators := [fxVal fxAddrA 1], proposer := none, totalVotingPower := some 1 }

/-- Outcome of the C4 counterexample run: the empty-signature Commit vote
of a known validator is *not* counted. -/
def c4FixOut : VerifyOutcome :=
  { ok := false, quorum := false, signedPower := 0, totalPower := 1,
    headerTime := none, appHash := [], blockIdHash := [7],
    unknownValidators := [], invalidSignatures := [hexUpper fxAddrA],
    countedSignatures := 0 }

/-- C4 counterexample: on a commit whose single entry is Commit-flagged,
from a known validator, with an absent signature, the code returns
`countedSignatures = 0` while the claim's counting rule gives 1 (the
entry lands in `invalidSignatures` instead). -/
theorem c4_counted_signatures_counterexample :
    verifyCommit (fxSH [c4FixSig]) c4FixVSet ([] : List (String × Unit))
        (fun _ _ _ => some true) = .ok c4FixOut ∧
    c4FixOut.countedSignatures = 0 ∧
    claimCountedSignatures (fxCommit [c4FixSig]) c4FixVSet = 1 := by
  refine ⟨by decide, rfl, by decide⟩

/-- Witness for the amended C4 on a mixed commit: one valid Commit vote,
one empty-signature Commit vote, one Absent vote, one unknown validator —
exactly one entry satisfies the amended counting rule. -/
def c4WitSigs : List ProtoCommitSig :=
  [fxSig fxAddrA [9], c4FixSig,
   { blockIdFlag := 1, validatorAddress := fxAddrA, timestamp := none, signature := [] },
   fxSig fxAddrB [9]]

/-- Validator set for the C4 witness (only `fxAddrA` is known). -/
def c4WitVSet : ValidatorSet :=
  { validators := [fxVal fxAddrA 1], proposer := none, totalVotingPower := some 1 }

theorem c4_counted_signatures_witness :
    verifyCommitTraced (fxSH c4WitSigs) c4WitVSet ([] : List (String × Unit))
        (fun _ _ _ => some true) =
      .ok ({ ok := false, quorum := false, signedPower := 0, totalPower := 1,
             headerTime := none, appHash := [], blockIdHash := [7],
             unknownValidators := [hexUpper fxAddrB],
             invalidSignatures := [hexUpper fxAddrA, hexUpper fxAddrA],
             countedSignatures := 1 }, []) ∧
    ({ ok := false, quorum := false, signedPower := 0, totalPower := 1,
       headerTime := none, appHash := [], blockIdHash := [7],
       unknownValidators := [hexUpper fxAddrB],
       invalidSignatures := [hexUpper fxAddrA, hexUpper fxAddrA],
       countedSignatures := 1 } : VerifyOutcome).countedSignatures =
      ((fxCommit c4WitSigs).signatures.filter
        (countsSig (c4WitVSet.validators.map (fun v => (hexUpper v.address, v))))).length := by
  have hyp :
      verifyCommitTraced (fxSH c4WitSigs) c4WitVSet ([] : List (String × Unit))
        (fun _ _ _ => some true) =
      .ok ({ ok := false, quorum := false, signedPower := 0, totalPower := 1,
             headerTime := none, appHash := [], blockIdHash := [7],
             unknownValidators := [hexUpper fxAddrB],
             invalidSignatures := [hexUpper fxAddrA, hexUpper fxAddrA],
             countedSignatures := 1 }, []) := by decide
  refine ⟨hyp, ?_⟩
  exact @c4_counted_signatures Unit (fxSH c4WitSigs) c4WitVSet []
    (fun _ _ _ => some true) (fxCommit c4WitSigs)
    { ok := false, quorum := false, signedPower := 0, totalPower := 1,
      headerTime := none, appHash := [], blockIdHash := [7],
      unknownValidators := [hexUpper fxAddrB],
      invalidSignatures := [hexUpper fxAddrA, hexUpper fxAddrA],
      countedSignatures := 1 } [] rfl hyp

/-! ## C3 — `signedPower` versus `totalPower`. -/

/-- The voting power `verifyCommit` adds for a validator (`?? 0n`). -/
def powOf (v : Validator) : Int :=
  v.votingPower.getD 0

/-- Power of the validator registered under a key, 0 if absent. -/
def powLookup (m : List (String × Validator)) (k : String) : Int :=
  match List.lookup k m with
  | some v => powOf v
  | none => 0

/-- A key outside an association list's key set looks up to nothing. -/
theorem lookup_eq_none_of_not_mem_keys {β : Type} {l : List (String × β)} {a : String}
    (h : a ∉ l.map Prod.fst) : List.lookup a l = none := by
  induction l with
  | nil => rfl
  | cons p rest ih =>
      obtain ⟨k, b⟩ := p
      simp only [List.map_cons, List.mem_cons] at h
      push_neg at h
      have hbeq : (a == k) = false := beq_eq_false_iff_ne.mpr h.1
      simp [List.lookup, hbeq, ih h.2]

/-- A successful lookup's key is among the keys. -/
theorem mem_keys_of_lookup_eq_some {β : Type} {l : List (String × β)} {a : String} {b : β}
    (h : List.lookup a l = some b) : a ∈ l.map Prod.fst := by
  by_contra hmem
  rw [lookup_eq_none_of_not_mem_keys hmem] at h
  cases h

/-- A key among the keys looks up to something. -/
theorem lookup_isSome_of_mem_keys {β : Type} {l : List (String × β)} {a : String}
    (h : a ∈ l.map Prod.fst) : (List.lookup a l).isSome = true := by
  cases hlk : List.lookup a l with
  | some b => rfl
  | none =>
      by_contra
      induction l with
      | nil => cases h
      | cons p rest ih =>
          obtain ⟨k, b⟩ := p
          by_cases hak : a = k
          · subst hak
            simp [List.lookup] at hlk
          · have hbeq : (a == k) = false := beq_eq_false_iff_ne.mpr hak
            simp only [List.lookup, hbeq] at hlk
            simp only [List.map_cons, List.mem_cons] at h
            rcases h with h | h
            · exact hak h
            · exact ih h hlk

/-- A successful lookup returns one of the stored values. -/
theorem lookup_mem_values {β : Type} {l : List (String × β)} {a : String} {b : β}
    (h : List.lookup a l = some b) : b ∈ l.map Prod.snd := by
  induction l with
  | nil => cases h
  | cons p rest ih =>
      obtain ⟨k, v⟩ := p
      simp only [List.lookup] at h
      cases hak : a == k with
      | true => rw [hak] at h; cases h; simp
      | false => rw [hak] at h; simp [ih h]

/-- All registered powers nonnegative makes every `powLookup` value
nonnegative. -/
theorem powLookup_nonneg {m : List (String × Validator)} {k : String}
    (h : ∀ v ∈ m.map Prod.snd, 0 ≤ powOf v) : 0 ≤ powLookup m k := by
  unfold powLookup
  cases hl : List.lookup k m with
  | none => simp
  | some v => exact h v (lookup_mem_values hl)

/-- Prepending one fresh keyed validator raises the summed lookups over a
duplicate-free key list by at most that validator's power. -/
theorem sum_powLookup_cons_le {h0 : String} {v : Validator}
    {m' : List (String × Validator)} (hfresh : h0 ∉ m'.map Prod.fst)
    (hv : 0 ≤ powOf v) :
    ∀ {ks : List String}, ks.Nodup →
      (ks.map (powLookup ((h0, v) :: m'))).sum ≤
        powOf v + (ks.map (powLookup m')).sum
  | [], _ => by simpa using hv
  | k :: ks', hnd => by
      have hnd' : ks'.Nodup := hnd.of_cons
      by_cases hk : k = h0
      · subst hk
        have hk0 : powLookup ((k, v) :: m') k = powOf v := by
          simp [powLookup, List.lookup]
        have hrest : ∀ j ∈ ks', powLookup ((k, v) :: m') j = powLookup m' j := by
          intro j hj
          have hjk : (j == k) = false := by
            refine beq_eq_false_iff_ne.mpr ?_
            rintro rfl
            exact (List.nodup_cons.mp hnd).1 hj
          simp [powLookup, List.lookup, hjk]
        have hmap : ks'.map (powLookup ((k, v) :: m')) = ks'.map (powLookup m') :=
          List.map_congr_left hrest
        have hzero : powLookup m' k = 0 := by
          simp [powLookup, lookup_eq_none_of_not_mem_keys hfresh]
        simp only [List.map_cons, List.sum_cons, hk0, hmap, hzero]
        omega
      · have hksame : powLookup ((h0, v) :: m') k = powLookup m' k := by
          have hbeq : (k == h0) = false := beq_eq_false_iff_ne.mpr hk
          simp [powLookup, List.lookup, hbeq]
        have ih := sum_powLookup_cons_le hfresh hv hnd'
        simp only [List.map_cons, List.sum_cons, hksame]
        omega

/-- Summing lookups over a duplicate-free key list never exceeds the sum
of all registered validators' powers. -/
theorem sum_powLookup_le_total :
    ∀ (vs : List Validator),
      ((vs.map (fun v => (hexUpper v.address, v))).map Prod.fst).Nodup →
      (∀ v ∈ vs, 0 ≤ powOf v) →
      ∀ (ks : List String), ks.Nodup →
        (ks.map (powLookup (vs.map (fun v => (hexUpper v.address, v))))).sum ≤
          (vs.map powOf).sum
  | [], _, _, ks, _ => by
      induction ks with
      | nil => simp
      | cons k ks' ih =>
          simp only [List.map_nil] at ih ⊢
          simp only [List.map_cons, List.sum_cons]
          have : powLookup [] k = 0 := by simp [powLookup, List.lookup]
          simp_all
  | v :: vs', hnd, hpow, ks, hks => by
      simp only [List.map_cons, List.nodup_cons] at hnd
      have hle := @sum_powLookup_cons_le (hexUpper v.address) v
        (vs'.map (fun v => (hexUpper v.address, v)))
        (by simpa using hnd.1) (hpow v (by simp)) ks hks
      have ih := sum_powLookup_le_total vs' hnd.2 (fun u hu => hpow u (by simp [hu])) ks hks
      simp only [List.map_cons, List.sum_cons]
      omega

/-- The contribution the quorum loop can add for one signature. -/
def sigGain (m : List (String × Validator)) (s : ProtoCommitSig) : Int :=
  if s.blockIdFlag = 2 then powLookup m (hexUpper s.validatorAddress) else 0

/-- One step adds at most `sigGain` to `signedPower`. -/
theorem processSig_signedPower_le {K : Type} {cid : String} {hgt rnd : Int}
    {bh : List Nat} {pt : Int} {ph : List Nat} {m : List (String × Validator)}
    {idx : List (String × K)} {orc : K → List Nat → List Nat → Option Bool}
    (hnn : ∀ v ∈ m.map Prod.snd, 0 ≤ powOf v)
    (st : SigState K) (s : ProtoCommitSig) :
    (processSig cid hgt rnd bh pt ph m idx orc st s).signedPower ≤
      st.signedPower + sigGain m s := by
  have hg : 0 ≤ sigGain m s := by
    unfold sigGain
    split
    · exact powLookup_nonneg hnn
    · simp
  unfold processSig
  simp only []
  split
  next hflag => omega
  next hflag =>
    have h2 : s.blockIdFlag = 2 := not_not.mp hflag
    split
    next hl => simp only []; omega
    next v hl =>
      have hgain : sigGain m s = powOf v := by simp [sigGain, h2, powLookup, hl]
      split
      next hsig => simp only []; omega
      next hsig =>
        split
        next hk => simp only []; omega
        next k hk =>
          split
          · simp only []; omega
          · simp only [hgain, powOf]; omega

/-- Fold form: `signedPower` is at most the summed per-signature gains. -/
theorem foldl_signedPower_le {K : Type} {cid : String} {hgt rnd : Int}
    {bh : List Nat} {pt : Int} {ph : List Nat} {m : List (String × Validator)}
    {idx : List (String × K)} {orc : K → List Nat → List Nat → Option Bool}
    (hnn : ∀ v ∈ m.map Prod.snd, 0 ≤ powOf v) :
    ∀ (l : List ProtoCommitSig) (st : SigState K),
      (l.foldl (processSig cid hgt rnd bh pt ph m idx orc) st).signedPower ≤
        st.signedPower + (l.map (sigGain m)).sum
  | [], st => by simp
  | s :: rest, st => by
      have hstep := @processSig_signedPower_le K cid hgt rnd bh pt ph m idx orc hnn st s
      have ih := @foldl_signedPower_le K cid hgt rnd bh pt ph m idx orc hnn rest
        (processSig cid hgt rnd bh pt ph m idx orc st s)
      simp only [List.foldl_cons, List.map_cons, List.sum_cons]
      omega

/-- Summed gains are the summed lookups over the Commit-flagged
signatures' addresses. -/
theorem sum_sigGain_eq (m : List (String × Validator)) :
    ∀ (l : List ProtoCommitSig),
      (l.map (sigGain m)).sum =
        (((l.filter (fun s => decide (s.blockIdFlag = 2))).map
          (fun s => hexUpper s.validatorAddress)).map (powLookup m)).sum
  | [] => by simp
  | s :: rest => by
      by_cases h2 : s.blockIdFlag = 2 <;>
        simp [List.filter_cons, h2, sigGain, sum_sigGain_eq m rest]

/-- `buildSetByAddr` preserves duplicate-freedom of the keys. -/
theorem buildSetByAddr_ok_keys_nodup :
    ∀ {vs : List Validator} {acc m : List (String × Validator)},
      buildSetByAddr vs acc = .ok m → (acc.map Prod.fst).Nodup →
      (m.map Prod.fst).Nodup
  | [], acc, m, h, hacc => by
      simp only [buildSetByAddr, Except.ok.injEq] at h
      exact h ▸ hacc
  | v :: rest, acc, m, h, hacc => by
      rw [buildSetByAddr] at h
      split at h
      · cases h
      next hdup =>
        refine buildSetByAddr_ok_keys_nodup h ?_
        have hfresh : hexUpper v.address ∉ acc.map Prod.fst := by
          intro hmem
          exact hdup (by simp [lookup_isSome_of_mem_keys hmem])
        simp only [List.map_append, List.map_cons, List.map_nil]
        exact List.Nodup.append hacc (List.nodup_singleton _)
          (by simpa [List.disjoint_singleton] using hfresh)

/-- C3 (amended): `signedPower ≤ totalPower` holds provided the
Commit-flagged signatures name pairwise-distinct validator addresses,
every validator's power is nonnegative, and the set's `totalVotingPower`
is at least the sum of its validators' powers.  The original claim (for
*every* commit meeting the preconditions, duplicates included) is false:
`verifyCommit` never deduplicates commit signatures, so the same
validator's power can be added twice (see the counterexample). -/
theorem c3_signed_le_total {K : Type} {sh : SignedHeader} {vset : ValidatorSet}
    {idx : List (String × K)} {orc : K → List Nat → List Nat → Option Bool}
    {cm : ProtoCommit} {O : VerifyOutcome} {tr : List (TraceEntry K)}
    (hc : sh.commit = some cm)
    (h : verifyCommitTraced sh vset idx orc = .ok (O, tr))
    (hnodup : ((cm.signatures.filter (fun s => decide (s.blockIdFlag = 2))).map
      (fun s => hexUpper s.validatorAddress)).Nodup)
    (hpow : ∀ v ∈ vset.validators, 0 ≤ v.votingPower.getD 0)
    (htot : (vset.validators.map (fun v => v.votingPower.getD 0)).sum ≤
      vset.totalVotingPower.getD 0) :
    O.signedPower ≤ O.totalPower := by
  obtain ⟨hdr', cm', bid', psh', m, hh', hc', hm, hb', hp', hO, htr⟩ :=
    verifyCommitTraced_ok_shape h
  rw [hc] at hc'; cases hc'
  have hmeq := buildSetByAddr_ok_eq hm
  simp only [List.nil_append] at hmeq
  have hkeys := buildSetByAddr_ok_keys_nodup hm (by simp)
  rw [hmeq] at hkeys
  have hnn : ∀ v ∈ (vset.validators.map (fun v => (hexUpper v.address, v))).map Prod.snd,
      0 ≤ powOf v := by
    intro v hv
    simp only [List.map_map, List.map_id] at hv
    have : v ∈ vset.validators := by
      rcases List.mem_map.mp hv with ⟨u, hu, hueq⟩
      simpa [hueq.symm] using hu
    exact hpow v this
  subst hmeq
  rw [hO]
  simp only []
  have hfold := @foldl_signedPower_le K hdr'.chainId hdr'.height cm.round bid'.hash
    psh'.total psh'.hash (vset.validators.map (fun v => (hexUpper v.address, v)))
    idx orc hnn cm.signatures (initSigState K)
  have hsum := sum_sigGain_eq (vset.validators.map (fun v => (hexUpper v.address, v)))
    cm.signatures
  have hbound := sum_powLookup_le_total vset.validators hkeys hpow _ hnodup
  have hpows : (vset.validators.map powOf).sum =
      (vset.validators.map (fun v => v.votingPower.getD 0)).sum := rfl
  simp only [initSigState] at hfold ⊢
  omega

/-- Two validators, total power 4 (the honest sum). -/
def c3FixVSet : ValidatorSet :=
  { validators := [fxVal fxAddrA 3, fxVal fxAddrB 1], proposer := none,
    totalVotingPower := some 4 }

/-- The same validator's valid Commit vote listed twice. -/
def c3FixSigs : List ProtoCommitSig := [fxSig fxAddrA [9], fxSig fxAddrA [9]]

/-- Outcome of the C3 counterexample run: power 3 is added twice. -/
def c3FixOut : VerifyOutcome :=
  { ok := true, quorum := true, signedPower := 6, totalPower := 4,
    headerTime := none, appHash := [], blockIdHash := [7],
    unknownValidators := [], invalidSignatures := [], countedSignatures := 2 }

/-- C3 counterexample: with the same validator address Commit-flagged
twice (both signatures verifying), the outcome has
`signedPower = 6 > 4 = totalPower`, refuting `signedPower ≤ totalPower`
as claimed. -/
theorem c3_signed_le_total_counterexample :
    verifyCommit (fxSH c3FixSigs) c3FixVSet [(hexUpper fxAddrA, ())]
        (fun _ _ _ => some true) = .ok c3FixOut ∧
    c3FixOut.totalPower < c3FixOut.signedPower := by
  refine ⟨by decide, by decide⟩

theorem c3_signed_le_total_witness :
    verifyCommitTraced (fxSH [fxSig fxAddrA [9]]) c3FixVSet [(hexUpper fxAddrA, ())]
        (fun _ _ _ => some true) =
      .ok ({ ok := true, quorum := true, signedPower := 3, totalPower := 4,
             headerTime := none, appHash := [], blockIdHash := [7],
             unknownValidators := [], invalidSignatures := [], countedSignatures := 1 },
           [{ addr := hexUpper fxAddrA, key := (), sigBytes := [9], ts := none,
              msg := makePrecommitSignBytesProto "c" 5 0 [7] 1 [8] none }]) ∧
    (3 : Int) ≤ 4 := by
  have hyp :
      verifyCommitTraced (fxSH [fxSig fxAddrA [9]]) c3FixVSet [(hexUpper fxAddrA, ())]
        (fun _ _ _ => some true) =
      .ok ({ ok := true, quorum := true, signedPower := 3, totalPower := 4,
             headerTime := none, appHash := [], blockIdHash := [7],
             unknownValidators := [], invalidSignatures := [], countedSignatures := 1 },
           [{ addr := hexUpper fxAddrA, key := (), sigBytes := [9], ts := none,
              msg := makePrecommitSignBytesProto "c" 5 0 [7] 1 [8] none }]) := by decide
  refine ⟨hyp, ?_⟩
  exact @c3_signed_le_total Unit (fxSH [fxSig fxAddrA [9]]) c3FixVSet
    [(hexUpper fxAddrA, ())] (fun _ _ _ => some true) (fxCommit [fxSig fxAddrA [9]])
    { ok := true, quorum := true, signedPower := 3, totalPower := 4,
      headerTime := none, appHash := [], blockIdHash := [7],
      unknownValidators := [], invalidSignatures := [], countedSignatures := 1 }
    [{ addr := hexUpper fxAddrA, key := (), sigBytes := [9], ts := none,
       msg := makePrecommitSignBytesProto "c" 5 0 [7] 1 [8] none }]
    rfl hyp (by decide) (by decide) (by decide)

/-! ## C5 — totality under the preconditions, exceptions caught. -/

/-- The map-building loop succeeds whenever the accumulated and incoming
keys are jointly duplicate-free. -/
theorem buildSetByAddr_ok_of_nodup :
    ∀ (vs : List Validator) (acc : List (String × Validator)),
      (acc.map Prod.fst ++ vs.map (fun v => hexUpper v.address)).Nodup →
      ∃ m, buildSetByAddr vs acc = .ok m
  | [], acc, _ => ⟨acc, rfl⟩
  | v :: rest, acc, hnd => by
      rw [List.nodup_append] at hnd
      obtain ⟨hacc, hcons, hdisj⟩ := hnd
      have hfresh : hexUpper v.address ∉ acc.map Prod.fst := by
        intro hmem
        exact hdisj hmem (by simp)
      have hnone : List.lookup (hexUpper v.address) acc = none :=
        lookup_eq_none_of_not_mem_keys hfresh
      have hnd' : ((acc ++ [(hexUpper v.address, v)]).map Prod.fst ++
          rest.map (fun v => hexUpper v.address)).Nodup := by
        rw [List.nodup_append]
        simp only [List.map_cons, List.nodup_cons] at hcons
        refine ⟨?_, hcons.2, ?_⟩
        · simp only [List.map_append, List.map_cons, List.map_nil]
          exact List.Nodup.append hacc (List.nodup_singleton _)
            (by simpa [List.disjoint_singleton] using hfresh)
        · intro a ha hmem
          simp only [List.map_append, List.map_cons, List.map_nil,
            List.mem_append, List.mem_singleton] at ha
          rcases ha with ha | ha
          · exact hdisj ha (by simp [hmem])
          · subst ha
            exact hcons.1 hmem
      obtain ⟨m, hm⟩ := buildSetByAddr_ok_of_nodup rest (acc ++ [(hexUpper v.address, v)]) hnd'
      refine ⟨m, ?_⟩
      rw [buildSetByAddr, hnone]
      simpa using hm

/-- The per-signature step never removes an address from
`invalidSignatures`. -/
theorem processSig_invalid_mono {K : Type} {cid : String} {hgt rnd : Int}
    {bh : List Nat} {pt : Int} {ph : List Nat} {m : List (String × Validator)}
    {idx : List (String × K)} {orc : K → List Nat → List Nat → Option Bool}
    (st : SigState K) (s : ProtoCommitSig) {x : String} (hx : x ∈ st.invalid) :
    x ∈ (processSig cid hgt rnd bh pt ph m idx orc st s).invalid := by
  unfold processSig
  simp only []
  split
  · exact hx
  · split
    · exact hx
    · split
      · simp only [List.mem_append]; exact Or.inl hx
      · split
        · simp only [List.mem_append]; exact Or.inl hx
        · split
          · simp only [List.mem_append]; exact Or.inl hx
          · exact hx

/-- Invariant: every traced `crypto.subtle.verify` call whose oracle threw
(`none`) has its address already recorded in `invalidSignatures`. -/
def caughtInv {K : Type} (orc : K → List Nat → List Nat → Option Bool)
    (st : SigState K) : Prop :=
  ∀ t ∈ st.calls, orc t.key t.sigBytes t.msg = none → t.addr ∈ st.invalid

/-- The per-signature step preserves `caughtInv`. -/
theorem processSig_caughtInv {K : Type} {cid : String} {hgt rnd : Int}
    {bh : List Nat} {pt : Int} {ph : List Nat} {m : List (String × Validator)}
    {idx : List (String × K)} {orc : K → List Nat → List Nat → Option Bool}
    (st : SigState K) (s : ProtoCommitSig) (hst : caughtInv orc st) :
    caughtInv orc (processSig cid hgt rnd bh pt ph m idx orc st s) := by
  intro t ht hnone
  simp only [processSig] at ht ⊢
  by_cases hflag : s.blockIdFlag ≠ 2
  · rw [if_pos hflag] at ht ⊢
    exact hst t ht hnone
  · rw [if_neg hflag] at ht ⊢
    cases hl : List.lookup (hexUpper s.validatorAddress) m with
    | none =>
        rw [hl] at ht
        simp only [] at ht ⊢
        exact hst t ht hnone
    | some v =>
        rw [hl] at ht
        simp only [] at ht ⊢
        by_cases hsig : s.signature = []
        · rw [if_pos hsig] at ht ⊢
          simp only [] at ht
          exact List.mem_append_left _ (hst t ht hnone)
        · rw [if_neg hsig] at ht ⊢
          cases hk : List.lookup (hexUpper s.validatorAddress) idx with
          | none =>
              rw [hk] at ht
              simp only [] at ht ⊢
              exact List.mem_append_left _ (hst t ht hnone)
          | some key =>
              rw [hk] at ht
              simp only [] at ht ⊢
              cases hor : orc key s.signature
                  (makePrecommitSignBytesProto cid hgt rnd bh pt ph s.timestamp) with
              | none =>
                  rw [hor] at ht
                  simp only [Bool.not_false, if_pos] at ht ⊢
                  simp only [List.mem_append, List.mem_singleton] at ht ⊢
                  rcases ht with ht | ht
                  · exact Or.inl (hst t ht hnone)
                  · subst ht
                    exact Or.inr rfl
              | some b =>
                  rw [hor] at ht
                  cases b with
                  | false =>
                      simp only [Bool.not_false, if_pos] at ht ⊢
                      simp only [List.mem_append, List.mem_singleton] at ht ⊢
                      rcases ht with ht | ht
                      · exact Or.inl (hst t ht hnone)
                      · subst ht
                        exact Or.inr rfl
                  | true =>
                      simp only [Bool.not_true, Bool.false_eq_true, if_false] at ht ⊢
                      simp only [List.mem_append, List.mem_singleton] at ht
                      rcases ht with ht | ht
                      · exact hst t ht hnone
                      · subst ht
                        simp only [] at hnone
                        rw [hnone] at hor
                        cases hor

/-- Fold form of `processSig_caughtInv`. -/
theorem foldl_caughtInv {K : Type} {cid : String} {hgt rnd : Int}
    {bh : List Nat} {pt : Int} {ph : List Nat} {m : List (String × Validator)}
    {idx : List (String × K)} {orc : K → List Nat → List Nat → Option Bool} :
    ∀ (l : List ProtoCommitSig) (st : SigState K), caughtInv orc st →
      caughtInv orc (l.foldl (processSig cid hgt rnd bh pt ph m idx orc) st)
  | [], _, hst => hst
  | s :: rest, st, hst =>
      foldl_caughtInv rest _ (processSig_caughtInv st s hst)

/-- C5: under the verifier's preconditions (header and commit present with
equal heights, non-empty validator set with positive total power and
distinct addresses, commit block id with non-empty hash, present
part-set header with non-empty hash and nonnegative total),
`verifyCommit` never throws: it returns an outcome for *every* behaviour
of the Ed25519 primitive, and a call on which the primitive throws
(`none`) gets its address recorded in `invalidSignatures` instead of
aborting the run. -/
theorem c5_no_throw {K : Type} (sh : SignedHeader) (vset : ValidatorSet)
    (idx : List (String × K)) (orc : K → List Nat → List Nat → Option Bool)
    {hdr : ProtoHeader} {cm : ProtoCommit} {bid : ProtoBlockID} {psh : ProtoPartSetHeader}
    (hh : sh.header = some hdr) (hc : sh.commit = some cm)
    (hhgt : hdr.height = cm.height)
    (hval : vset.validators ≠ [])
    (htp : 0 < vset.totalVotingPower.getD 0)
    (hnd : (vset.validators.map (fun v => hexUpper v.address)).Nodup)
    (hb : cm.blockId = some bid) (hbh : bid.hash ≠ [])
    (hp : bid.partSetHeader = some psh) (hph : psh.hash ≠ []) (hpt : 0 ≤ psh.total) :
    ∃ O tr, verifyCommitTraced sh vset idx orc = .ok (O, tr) ∧
      ∀ t ∈ tr, orc t.key t.sigBytes t.msg = none → t.addr ∈ O.invalidSignatures := by
  obtain ⟨m, hm⟩ := buildSetByAddr_ok_of_nodup vset.validators [] (by simpa using hnd)
  have htp' : ¬(vset.totalVotingPower.getD 0 ≤ 0) := by omega
  have hpt' : ¬(psh.total < 0) := by omega
  have hhgt' : ¬(hdr.height ≠ cm.height) := by simp [hhgt]
  rw [verifyCommitTraced, hh, hc]
  simp only []
  rw [if_neg hhgt', if_neg hval, if_neg htp', hm]
  simp only []
  rw [hb]
  simp only []
  rw [if_neg hbh, hp]
  simp only []
  rw [if_neg hph, if_neg hpt']
  refine ⟨_, _, rfl, ?_⟩
  exact foldl_caughtInv cm.signatures (initSigState K) (by intro t ht; cases ht)

/-- Index holding a key for the fixture validator. -/
def c5FixIdx : List (String × Unit) := [(hexUpper fxAddrA, ())]

theorem c5_no_throw_witness :
    ((fxSH [fxSig fxAddrA [9]]).header = some fxHeader ∧
     (fxSH [fxSig fxAddrA [9]]).commit = some (fxCommit [fxSig fxAddrA [9]]) ∧
     fxHeader.height = (fxCommit [fxSig fxAddrA [9]]).height ∧
     c1FixVSet.validators ≠ [] ∧
     0 < c1FixVSet.totalVotingPower.getD 0 ∧
     (c1FixVSet.validators.map (fun v => hexUpper v.address)).Nodup ∧
     (fxCommit [fxSig fxAddrA [9]]).blockId = some fxBlockId ∧
     fxBlockId.hash ≠ [] ∧
     fxBlockId.partSetHeader = some { total := 1, hash := [8] } ∧
     ({ total := 1, hash := [8] } : ProtoPartSetHeader).hash ≠ [] ∧
     0 ≤ ({ total := 1, hash := [8] } : ProtoPartSetHeader).total) ∧
    (∃ O tr,
      verifyCommitTraced (fxSH [fxSig fxAddrA [9]]) c1FixVSet c5FixIdx
          (fun _ _ _ => none) = .ok (O, tr) ∧
      ∀ t ∈ tr, (fun (_ : Unit) (_ : List Nat) (_ : List Nat) => (none : Option Bool))
          t.key t.sigBytes t.msg = none → t.addr ∈ O.invalidSignatures) :=
  ⟨by decide,
   @c5_no_throw Unit (fxSH [fxSig fxAddrA [9]]) c1FixVSet c5FixIdx
     (fun _ _ _ => none) fxHeader (fxCommit [fxSig fxAddrA [9]]) fxBlockId
     { total := 1, hash := [8] }
     rfl rfl rfl (by decide) (by decide) (by decide) rfl (by decide) rfl
     (by decide) (by decide)⟩

/-! ## Validator-importer facts shared by C6, C7, C9, C10. -/

/-- Every entry a successful `importValidators` run consumed passed all
per-entry checks: a well-formed Ed25519 key object, a key the crypto
provider could import, and a claimed address that matches (up to case)
the one derived from the key. -/
theorem importValidatorsLoop_ok_entries {K : Type} (sha256 : List Nat → List Nat)
    (importKey : List Nat → Option K) :
    ∀ (l : List ValidatorEntryJson) (seen : List String) (idx : List (String × K))
      (protos : List Validator) (counted : Int) (out : ImportValidatorsOut K),
      importValidatorsLoop sha256 importKey l seen idx protos counted = .ok out →
      ∀ e ∈ l, ∃ pk, e.pub_key = some pk ∧
        (importKey (base64ToUint8Array pk.value)).isSome = true ∧
        toUpperCase e.address =
          hexUpper ((sha256 (base64ToUint8Array pk.value)).take 20)
  | [], _, _, _, _, _, _, e, he => absurd he (List.not_mem_nil e)
  | v :: rest, seen, idx, protos, counted, out, h, e, he => by
      rw [importValidatorsLoop] at h
      simp only [] at h
      repeat' split at h
      all_goals try (cases h)
      rename_i h40 x2 pkv hpk hne1 hne2 x1 keyv hkey haddr hseen x0 q0 hq0 hpw
      rcases List.mem_cons.mp he with he | he
      · subst he
        exact ⟨pkv, hpk, by simp [hkey], (not_not.mp haddr).symm⟩
      · exact importValidatorsLoop_ok_entries sha256 importKey rest _ _ _ _ out h e he

/-- Every validator a successful `importValidators` run returns stores
its raw key and the first 20 bytes of that key's digest as its address,
and its uppercase hex address is a key of the returned `cryptoIndex`. -/
theorem importValidatorsLoop_ok_validators {K : Type} (sha256 : List Nat → List Nat)
    (importKey : List Nat → Option K) :
    ∀ (l : List ValidatorEntryJson) (seen : List String) (idx : List (String × K))
      (protos : List Validator) (counted : Int) (out : ImportValidatorsOut K),
      importValidatorsLoop sha256 importKey l seen idx protos counted = .ok out →
      (∀ v ∈ protos, v.address = (sha256 v.pubKeyBytes).take 20 ∧
        hexUpper v.address ∈ idx.map Prod.fst) →
      ∀ v ∈ out.proto.validators, v.address = (sha256 v.pubKeyBytes).take 20 ∧
        hexUpper v.address ∈ out.cryptoIndex.map Prod.fst
  | [], _, _, _, _, _, h, hpre, v, hv => by
      rw [importValidatorsLoop] at h
      cases h
      exact hpre v hv
  | e :: rest, seen, idx, protos, counted, out, h, hpre, v, hv => by
      rw [importValidatorsLoop] at h
      simp only [] at h
      repeat' split at h
      all_goals try (cases h)
      rename_i h40 x2 pkv hpk hne1 hne2 x1 keyv hkey haddr hseen x0 q0 hq0 hpw
      refine importValidatorsLoop_ok_validators sha256 importKey
        rest _ _ _ _ out h ?_ v hv
      intro u hu
      simp only [List.mem_append, List.mem_singleton] at hu
      rcases hu with hu | hu
      · obtain ⟨h1, h2⟩ := hpre u hu
        exact ⟨h1, by simp [List.mem_append, h2]⟩
      · subst hu
        refine ⟨rfl, ?_⟩
        simp [List.map_append]

/-! ## C7 — key-import failure: importer behaviour and verify-time
reporting. -/

/-- No-key address that meets all other vote conditions ends up in
`invalidSignatures`. -/
theorem processSig_missing_key {K : Type} {cid : String} {hgt rnd : Int}
    {bh : List Nat} {pt : Int} {ph : List Nat} {m : List (String × Validator)}
    {idx : List (String × K)} {orc : K → List Nat → List Nat → Option Bool}
    (st : SigState K) {s : ProtoCommitSig} {v : Validator}
    (hflag : s.blockIdFlag = 2)
    (hl : List.lookup (hexUpper s.validatorAddress) m = some v)
    (hsig : s.signature ≠ [])
    (hk : List.lookup (hexUpper s.validatorAddress) idx = none) :
    hexUpper s.validatorAddress ∈
      (processSig cid hgt rnd bh pt ph m idx orc st s).invalid := by
  unfold processSig
  simp only []
  rw [if_neg (by simp [hflag]), hl]
  simp only []
  rw [if_neg hsig, hk]
  simp [List.mem_append]

/-- The fold never loses `invalidSignatures` entries. -/
theorem foldl_invalid_mono {K : Type} {cid : String} {hgt rnd : Int}
    {bh : List Nat} {pt : Int} {ph : List Nat} {m : List (String × Validator)}
    {idx : List (String × K)} {orc : K → List Nat → List Nat → Option Bool} :
    ∀ (l : List ProtoCommitSig) (st : SigState K) {x : String}, x ∈ st.invalid →
      x ∈ (l.foldl (processSig cid hgt rnd bh pt ph m idx orc) st).invalid
  | [], _, _, hx => hx
  | s :: rest, st, _, hx =>
      foldl_invalid_mono rest _ (processSig_invalid_mono st s hx)

/-- A Commit-flagged vote of a known validator with a non-empty
signature but no crypto key is reported invalid by the fold. -/
theorem foldl_missing_key {K : Type} {cid : String} {hgt rnd : Int}
    {bh : List Nat} {pt : Int} {ph : List Nat} {m : List (String × Validator)}
    {idx : List (String × K)} {orc : K → List Nat → List Nat → Option Bool} :
    ∀ {l : List ProtoCommitSig} {s : ProtoCommitSig} {v : Validator}, s ∈ l →
      s.blockIdFlag = 2 →
      List.lookup (hexUpper s.validatorAddress) m = some v →
      s.signature ≠ [] →
      List.lookup (hexUpper s.validatorAddress) idx = none →
      ∀ st : SigState K,
        hexUpper s.validatorAddress ∈
          (l.foldl (processSig cid hgt rnd bh pt ph m idx orc) st).invalid
  | [], s, _, hs, _, _, _, _, _ => absurd hs (List.not_mem_nil s)
  | a :: rest, s, v, hs, hflag, hl, hsig, hk, st => by
      rcases List.mem_cons.mp hs with hs | hs
      · subst hs
        exact foldl_invalid_mono rest _
          (processSig_missing_key st hflag hl hsig hk)
      · exact foldl_missing_key hs hflag hl hsig hk _

/-- C7 (amended): a failure to construct the crypto verifier handle makes
the importer *throw* — on any successful import every consumed entry's
key was imported (so no validator is ever "included but keyless" out of
this importer); independently, at verify time a Commit-flagged vote of a
validator that is in the set but whose address is absent from the
CryptoIndex is reported in `invalidSignatures`. -/
theorem c7_key_import_failure :
    (∀ (K : Type) (resp : ValidatorResultJson) (sha256 : List Nat → List Nat)
       (importKey : List Nat → Option K) (out : ImportValidatorsOut K),
       importValidators resp sha256 importKey = .ok out →
       ∀ e ∈ resp.validators, ∃ pk, e.pub_key = some pk ∧
         (importKey (base64ToUint8Array pk.value)).isSome = true) ∧
    (∀ (K : Type) (sh : SignedHeader) (vset : ValidatorSet)
       (idx : List (String × K)) (orc : K → List Nat → List Nat → Option Bool)
       (cm : ProtoCommit) (O : VerifyOutcome) (tr : List (TraceEntry K)),
       sh.commit = some cm →
       verifyCommitTraced sh vset idx orc = .ok (O, tr) →
       ∀ s ∈ cm.signatures, s.blockIdFlag = 2 →
         hexUpper s.validatorAddress ∈
           vset.validators.map (fun v => hexUpper v.address) →
         s.signature ≠ [] →
         List.lookup (hexUpper s.validatorAddress) idx = none →
         hexUpper s.validatorAddress ∈ O.invalidSignatures) := by
  constructor
  · intro K resp sha256 importKey out h e he
    unfold importValidators at h
    split at h
    · cases h
    · obtain ⟨pk, hpk, hkey, _⟩ :=
        importValidatorsLoop_ok_entries sha256 importKey resp.validators
          [] [] [] 0 out h e he
      exact ⟨pk, hpk, hkey⟩
  · intro K sh vset idx orc cm O tr hc h s hs hflag hknown hsig hk
    obtain ⟨hdr', cm', bid', psh', m, hh', hc', hm, hb', hp', hO, htr⟩ :=
      verifyCommitTraced_ok_shape h
    rw [hc] at hc'; cases hc'
    have hmeq := buildSetByAddr_ok_eq hm
    simp only [List.nil_append] at hmeq
    subst hmeq
    have hkeys : hexUpper s.validatorAddress ∈
        (vset.validators.map (fun v => (hexUpper v.address, v))).map Prod.fst := by
      simpa [List.map_map, Function.comp] using hknown
    have hsome := lookup_isSome_of_mem_keys hkeys
    cases hl : List.lookup (hexUpper s.validatorAddress)
        (vset.validators.map (fun v => (hexUpper v.address, v))) with
    | none => rw [hl] at hsome; cases hsome
    | some v =>
        rw [hO]
        exact foldl_missing_key hs hflag hl hsig hk (initSigState K)

/-- Raw key bytes for the witness fixtures (32 zero bytes / 32 one
bytes) and their digests under the witness hash oracle. -/
def fxKey1 : List Nat := List.replicate 32 0

/-- Second fixture raw key. -/
def fxKey2 : List Nat := List.replicate 32 1

/-- Digest of `fxKey1` under the witness oracle (its first 20 bytes are
`fxAddrA`). -/
def fxSha1 : List Nat := 1 :: List.replicate 31 0

/-- Digest of `fxKey2` under the witness oracle (its first 20 bytes are
`fxAddrB`). -/
def fxSha2 : List Nat := 2 :: List.replicate 31 0

/-- The witness SHA-256 oracle. -/
def fxShaOracle : List Nat → List Nat :=
  fun b => if b = fxKey1 then fxSha1 else fxSha2

/-- Base64 of `fxKey1`. -/
def fxB64Key1 : String := String.mk (List.replicate 43 'A') ++ "="

/-- Base64 of `fxKey2`. -/
def fxB64Key2 : String :=
  String.mk ((List.replicate 10 ['A', 'Q', 'E', 'B']).flatten) ++ "AQE="

/-- A well-formed validator entry for `fxKey1`. -/
def fxEntry1 : ValidatorEntryJson :=
  { address := hexUpper fxAddrA,
    pub_key := some { type := "tendermint/PubKeyEd25519", value := fxB64Key1 },
    voting_power := "1", power := none, proposer_priority := "0" }

/-- A well-formed validator entry for `fxKey2`. -/
def fxEntry2 : ValidatorEntryJson :=
  { address := hexUpper fxAddrB,
    pub_key := some { type := "tendermint/PubKeyEd25519", value := fxB64Key2 },
    voting_power := "1", power := none, proposer_priority := "0" }

/-- A two-validator `/validators` result object. -/
def fxVResp : ValidatorResultJson :=
  { block_height := "12", validators := [fxEntry1, fxEntry2],
    count := "2", total := "2" }

/-- The output of importing `fxVResp` under the witness oracles. -/
def fxVOut : ImportValidatorsOut Unit :=
  { proto :=
      { validators :=
          [{ address := fxAddrA, pubKeyBytes := fxKey1, pubKeyType := "ed25519",
             votingPower := some 1, proposerPriority := 0 },
           { address := fxAddrB, pubKeyBytes := fxKey2, pubKeyType := "ed25519",
             votingPower := some 1, proposerPriority := 0 }],
        proposer := none, totalVotingPower := some 2 },
    cryptoIndex := [(hexUpper fxAddrA, ()), (hexUpper fxAddrB, ())] }

theorem c7_key_import_failure_witness :
    (importValidators fxVResp fxShaOracle (fun _ => some ()) = .ok fxVOut ∧
     ∀ e ∈ fxVResp.validators, ∃ pk, e.pub_key = some pk ∧
       ((fun (_ : List Nat) => some ()) (base64ToUint8Array pk.value)).isSome = true) ∧
    (verifyCommitTraced (fxSH [fxSig fxAddrA [9]]) c1FixVSet
        ([] : List (String × Unit)) (fun _ _ _ => some true) =
      .ok ({ ok := false, quorum := false, signedPower := 0, totalPower := 1,
             headerTime := none, appHash := [], blockIdHash := [7],
             unknownValidators := [], invalidSignatures := [hexUpper fxAddrA],
             countedSignatures := 1 }, []) ∧
     hexUpper fxAddrA ∈
       ({ ok := false, quorum := false, signedPower := 0, totalPower := 1,
          headerTime := none, appHash := [], blockIdHash := [7],
          unknownValidators := [], invalidSignatures := [hexUpper fxAddrA],
          countedSignatures := 1 } : VerifyOutcome).invalidSignatures) := by
  have himp : importValidators fxVResp fxShaOracle (fun _ => some ()) = .ok fxVOut := by
    decide
  have hver :
      verifyCommitTraced (fxSH [fxSig fxAddrA [9]]) c1FixVSet
        ([] : List (String × Unit)) (fun _ _ _ => some true) =
      .ok ({ ok := false, quorum := false, signedPower := 0, totalPower := 1,
             headerTime := none, appHash := [], blockIdHash := [7],
             unknownValidators := [], invalidSignatures := [hexUpper fxAddrA],
             countedSignatures := 1 }, []) := by decide
  refine ⟨⟨himp, c7_key_import_failure.1 Unit fxVResp fxShaOracle (fun _ => some ())
    fxVOut himp⟩, hver, ?_⟩
  exact c7_key_import_failure.2 Unit (fxSH [fxSig fxAddrA [9]]) c1FixVSet []
    (fun _ _ _ => some true) (fxCommit [fxSig fxAddrA [9]])
    { ok := false, quorum := false, signedPower := 0, totalPower := 1,
      headerTime := none, appHash := [], blockIdHash := [7],
      unknownValidators := [], invalidSignatures := [hexUpper fxAddrA],
      countedSignatures := 1 } [] rfl hver (fxSig fxAddrA [9]) (by decide)
    (by decide) (by decide) (by decide) (by decide)

/-- C7 counterexample: an otherwise-valid single-entry input on which the
key-import oracle fails makes `importValidators` return an error — the
entry is *not* included with its address merely absent from the
CryptoIndex, as the claim states. -/
theorem c7_key_import_failure_counterexample :
    importValidators fxVResp fxShaOracle (fun _ => (none : Option Unit)) =
      .error "importKey failed" ∧
    (some fxB64Key1 ≠ none → True) := by
  exact ⟨by decide, fun _ => trivial⟩

/-! ## C6 — the pagination check of the RPC-envelope importer. -/

/-- C6 (amended): with `validators`, `count`, `total` and `block_height`
present, the importer throws "must not paginate" whenever
`Number(total) !== Number(count)` or `Number(total) < 2` — a *numeric*
comparison of the parsed values, not the string equality / integrality
test of the original claim (see the counterexample: `count="02"`,
`total="2"` differ as strings yet import succeeds). -/
theorem c6_must_not_paginate (K : Type) (resp : ValidatorResponse)
    (r : ValidatorResultJson) (sha256 : List Nat → List Nat)
    (importKey : List Nat → Option K)
    (hres : resp.result = some r) (hvs : r.validators ≠ [])
    (hcnt : ¬(r.count = "" ∨ r.total = "")) (hbh : r.block_height ≠ "")
    (hbad : jsNeq (jsNumberOfString r.total) (jsNumberOfString r.count) = true ∨
      jsLt (jsNumberOfString r.total) 2 = true) :
    importValidatorsRPC resp sha256 importKey =
      .error "The response object must not paginate" := by
  rw [importValidatorsRPC, hres]
  simp only []
  rw [if_neg hvs, if_neg hcnt, if_neg hbh, if_pos hbad]

/-- A `/validators` response whose `count` field is the string "02" while
`total` is "2": the two fields are unequal as strings. -/
def c6FixResp : ValidatorResponse :=
  { result := some { block_height := "12", validators := [fxEntry1, fxEntry2],
                     count := "02", total := "2" } }

/-- C6 counterexample: on `count="02"`, `total="3" ≠` … in fact the claim
requires a "must not paginate" throw for *any* input whose count and
total fields are not equal; with `count="02"` and `total="2"` the fields
differ as strings, yet the importer parses both to the number 2 and
returns a validator set successfully. -/
theorem c6_must_not_paginate_counterexample :
    importValidatorsRPC c6FixResp fxShaOracle (fun _ => some ()) =
      .ok { height := 12, totalPower := some { m := 1, e := 1 },
            validators :=
              [{ key := (), address := hexUpper fxAddrA, power := { m := 1, e := 0 } },
               { key := (), address := hexUpper fxAddrB, power := { m := 1, e := 0 } }] } ∧
    "02" ≠ "2" := by
  exact ⟨by decide, by decide⟩

/-- A paginated `/validators` response (`count="2"`, `total="3"`). -/
def c6PagResp : ValidatorResponse :=
  { result := some { block_height := "12", validators := [fxEntry1, fxEntry2],
                     count := "2", total := "3" } }

theorem c6_must_not_paginate_witness :
    (c6PagResp.result = some { block_height := "12", validators := [fxEntry1, fxEntry2],
                               count := "2", total := "3" } ∧
     ¬(("2" : String) = "" ∨ ("3" : String) = "") ∧
     (jsNeq (jsNumberOfString "3") (jsNumberOfString "2") = true ∨
       jsLt (jsNumberOfString "3") 2 = true)) ∧
    importValidatorsRPC c6PagResp fxShaOracle (fun _ => some (() : Unit)) =
      .error "The response object must not paginate" :=
  ⟨⟨rfl, by decide, by decide⟩,
   c6_must_not_paginate Unit c6PagResp
     { block_height := "12", validators := [fxEntry1, fxEntry2],
       count := "2", total := "3" }
     fxShaOracle (fun _ => some ()) rfl (by decide) (by decide) (by decide)
     (by decide)⟩

/-! ## C9 — the address/key binding of the validator importer. -/

/-- C9: on a successful import, every validator's stored address is the
first 20 bytes of the SHA-256 of its raw public key (kept as raw bytes,
with the uppercase hex form indexing the CryptoIndex); and every consumed
entry's claimed address agrees, compared case-insensitively, with the one
derived from its key — an entry with a mismatched address can never be
part of a successful import (the importer throws on it). -/
theorem c9_address_binding (K : Type) (resp : ValidatorResultJson)
    (sha256 : List Nat → List Nat) (importKey : List Nat → Option K)
    (out : ImportValidatorsOut K)
    (h : importValidators resp sha256 importKey = .ok out) :
    (∀ v ∈ out.proto.validators, v.address = (sha256 v.pubKeyBytes).take 20 ∧
      hexUpper v.address ∈ out.cryptoIndex.map Prod.fst) ∧
    (∀ e ∈ resp.validators, ∃ pk, e.pub_key = some pk ∧
      toUpperCase e.address =
        hexUpper ((sha256 (base64ToUint8Array pk.value)).take 20)) := by
  unfold importValidators at h
  split at h
  · cases h
  · constructor
    · exact importValidatorsLoop_ok_validators sha256 importKey resp.validators
        [] [] [] 0 out h (by intro v hv; cases hv)
    · intro e he
      obtain ⟨pk, hpk, _, haddr⟩ :=
        importValidatorsLoop_ok_entries sha256 importKey resp.validators
          [] [] [] 0 out h e he
      exact ⟨pk, hpk, haddr⟩

theorem c9_address_binding_witness :
    importValidators fxVResp fxShaOracle (fun _ => some (() : Unit)) = .ok fxVOut ∧
    ((∀ v ∈ fxVOut.proto.validators, v.address = (fxShaOracle v.pubKeyBytes).take 20 ∧
        hexUpper v.address ∈ fxVOut.cryptoIndex.map Prod.fst) ∧
     (∀ e ∈ fxVResp.validators, ∃ pk, e.pub_key = some pk ∧
        toUpperCase e.address =
          hexUpper ((fxShaOracle (base64ToUint8Array pk.value)).take 20))) := by
  have himp : importValidators fxVResp fxShaOracle (fun _ => some (() : Unit)) =
      .ok fxVOut := by decide
  exact ⟨himp, c9_address_binding Unit fxVResp fxShaOracle (fun _ => some ()) fxVOut himp⟩

/-! ## C10 — voting-power precision. -/

/-- A validator entry claiming voting power 2^53 + 1 (within the int64
range the spec requires to be handled exactly). -/
def c10Entry : ValidatorEntryJson :=
  { fxEntry1 with voting_power := "9007199254740993" }

/-- A single-validator `/validators` result object with that power. -/
def c10Resp : ValidatorResultJson :=
  { block_height := "12", validators := [c10Entry], count := "1", total := "1" }

/-- C10 (failing input): the importer converts `voting_power` through the
double-precision `Number(...)` before `BigInt(...)`; at
`voting_power = "9007199254740993"` (2^53 + 1) the parse rounds to
9007199254740992, so the imported `votingPower` and `totalVotingPower`
are *not* the exact claimed integer — contradicting the unbounded-integer
requirement of the spec for powers up to 2^63 - 1. -/
theorem c10_power_rounding :
    importValidators c10Resp fxShaOracle (fun _ => some (() : Unit)) =
      .ok { proto :=
              { validators :=
                  [{ address := fxAddrA, pubKeyBytes := fxKey1,
                     pubKeyType := "ed25519",
                     votingPower := some 9007199254740992,
                     proposerPriority := 0 }],
                proposer := none, totalVotingPower := some 9007199254740992 },
            cryptoIndex := [(hexUpper fxAddrA, ())] } ∧
    (9007199254740992 : Int) ≠ 9007199254740993 := by
  exact ⟨by decide, by decide⟩

/-! ## C8 — signature handling of the commit importer. -/

/-- `assertLen` succeeds exactly on byte strings of the expected
length, returning them unchanged. -/
theorem assertLen_ok {name : String} {bytes : List Nat} {expect : Nat}
    {out : List Nat} (h : assertLen name bytes expect = .ok out) :
    out = bytes ∧ bytes.length = expect := by
  unfold assertLen at h
  split at h
  · cases h
  next hlen =>
    cases h
    exact ⟨rfl, not_not.mp hlen⟩

/-- A successful signature-mapping run consumed only entries whose
`signature` field is present, non-empty and decodes to exactly 64 bytes,
and produced only 64-byte signatures. -/
theorem importSignatures_ok :
    ∀ (l : List CommitSigJson) (i : Nat) (out : List ProtoCommitSig),
      importSignatures l i = .ok out →
      (∀ e ∈ l, ∃ str, e.signature = some str ∧ str ≠ "" ∧
        (base64ToUint8Array str).length = 64) ∧
      (∀ s ∈ out, s.signature.length = 64)
  | [], _, out, h => by
      rw [importSignatures] at h
      cases h
      exact ⟨fun e he => absurd he (List.not_mem_nil e),
             fun s hs => absurd hs (List.not_mem_nil s)⟩
  | s :: rest, i, out, h => by
      rw [importSignatures] at h
      simp only [] at h
      repeat' split at h
      all_goals try (cases h)
      rename_i xf flag hflag hne xa addrBytes haddr xs sigStr hsigstr hnestr
        xb sigBytes hsigbytes xt tsv hts xr tail hrec
      have ih := importSignatures_ok rest (i + 1) tail hrec
      obtain ⟨-, hlen⟩ := assertLen_ok hsigbytes
      constructor
      · intro e he
        rcases List.mem_cons.mp he with he | he
        · subst he
          obtain ⟨ho, hl⟩ := assertLen_ok hsigbytes
          exact ⟨sigStr, hsigstr, hnestr, hl⟩
        · exact ih.1 e he
      · intro u hu
        rcases List.mem_cons.mp hu with hu | hu
        · subst hu
          obtain ⟨ho, hl⟩ := assertLen_ok hsigbytes
          simpa [ho] using hl
        · exact ih.2 u hu

/-- C8 (amended): the commit importer *rejects* a signature entry whose
`signature` field is absent or the empty string, throwing
"signature missing" — no normalization to length-0 bytes occurs; a
present signature is accepted only if it decodes to exactly 64 bytes
(any other length throws), so every signature in a successfully imported
commit is exactly 64 bytes. -/
theorem c8_signature_handling {resp : CommitResponse} {sh : SignedHeader}
    {res : CommitResultJson} {shj : SignedHeaderJson} {cj : CommitJsonBody}
    (hres : resp.result = some res) (hshj : res.signed_header = some shj)
    (hcj : shj.commit = some cj)
    (h : importCommit resp = .ok sh) :
    (∀ e ∈ cj.signatures, ∃ str, e.signature = some str ∧ str ≠ "" ∧
      (base64ToUint8Array str).length = 64) ∧
    (∀ cmt, sh.commit = some cmt → ∀ s ∈ cmt.signatures, s.signature.length = 64) := by
  rw [importCommit, hres] at h
  simp only [] at h
  rw [hshj] at h
  simp only [] at h
  cases hhj : shj.header with
  | none => rw [hhj] at h; cases h
  | some hj =>
      rw [hhj, hcj] at h
      simp only [] at h
      repeat' split at h
      all_goals try (cases h)
      rename_i sigs hsigs
      have hok := importSignatures_ok cj.signatures 0 sigs hsigs
      refine ⟨hok.1, ?_⟩
      intro cmt hcmt
      cases hcmt
      exact hok.2

/-- A 64-character all-zero hex string. -/
def fxZ64 : String := String.mk (List.replicate 64 '0')

/-- A 40-character all-zero hex string. -/
def fxZ40 : String := String.mk (List.replicate 40 '0')

/-- Base64 of 64 zero bytes. -/
def fxSigB64 : String := String.mk (List.replicate 86 'A') ++ "=="

/-- A commit-signature JSON entry with the given signature field. -/
def c8Sig (sig : Option String) : CommitSigJson :=
  { block_id_flag := some 2, validator_address := fxZ40,
    timestamp := some "2025-08-18T13:39:10.9Z", signature := sig }

/-- A well-formed `/commit` header JSON. -/
def c8Header : HeaderJson :=
  { version := none, chain_id := "c", height := "12",
    time := some "2025-08-18T13:39:10Z",
    last_block_id := some { hash := fxZ64, parts := some { total := 1, hash := fxZ64 } },
    last_commit_hash := fxZ64, data_hash := fxZ64, validators_hash := fxZ64,
    next_validators_hash := fxZ64, consensus_hash := fxZ64, app_hash := "0011",
    last_results_hash := fxZ64, evidence_hash := fxZ64, proposer_address := fxZ40 }

/-- The `commit` JSON body with the given signature field. -/
def c8CommitBody (sig : Option String) : CommitJsonBody :=
  { height := "12", round := 0,
    block_id := some { hash := fxZ64, parts := some { total := 1, hash := fxZ64 } },
    signatures := [c8Sig sig] }

/-- The `signed_header` JSON with the given signature field. -/
def c8SHJson (sig : Option String) : SignedHeaderJson :=
  { header := some c8Header, commit := some (c8CommitBody sig) }

/-- A `/commit` response whose only signature entry carries the given
signature field. -/
def c8Resp (sig : Option String) : CommitResponse :=
  { result := some { signed_header := some (c8SHJson sig) } }

/-- C8 counterexample: a commit whose single signature entry has an
absent `signature` field is *rejected* with "signature missing" — the
importer does not normalize it to length-0 bytes (and the same happens
for an empty-string signature). -/
theorem c8_signature_handling_counterexample :
    importCommit (c8Resp none) = .error "signatures[0].signature missing" ∧
    importCommit (c8Resp (some "")) = .error "signatures[0].signature missing" := by
  exact ⟨by decide, by decide⟩

/-- The imported form of `c8Resp (some fxSigB64)`. -/
def c8ImportedSH : SignedHeader :=
  { header := some
      { version := none, chainId := "c", height := 12,
        time := some { seconds := 1755524350, nanos := 0 },
        lastBlockId := some { hash := List.replicate 32 0,
                              partSetHeader := some { total := 1, hash := List.replicate 32 0 } },
        lastCommitHash := List.replicate 32 0, dataHash := List.replicate 32 0,
        validatorsHash := List.replicate 32 0, nextValidatorsHash := List.replicate 32 0,
        consensusHash := List.replicate 32 0, appHash := [0, 17],
        lastResultsHash := List.replicate 32 0, evidenceHash := List.replicate 32 0,
        proposerAddress := List.replicate 20 0 },
    commit := some
      { height := 12, round := 0,
        blockId := some { hash := List.replicate 32 0,
                          partSetHeader := some { total := 1, hash := List.replicate 32 0 } },
        signatures := [{ blockIdFlag := 2, validatorAddress := List.replicate 20 0,
                         timestamp := some { seconds := 1755524350, nanos := 900000000 },
                         signature := List.replicate 64 0 }] } }

theorem c8_signature_handling_witness :
    importCommit (c8Resp (some fxSigB64)) = .ok c8ImportedSH ∧
    ((∀ e ∈ [c8Sig (some fxSigB64)], ∃ str, e.signature = some str ∧ str ≠ "" ∧
        (base64ToUint8Array str).length = 64) ∧
     (∀ cmt, c8ImportedSH.commit = some cmt →
        ∀ s ∈ cmt.signatures, s.signature.length = 64)) := by
  have himp : importCommit (c8Resp (some fxSigB64)) = .ok c8ImportedSH := by decide
  exact ⟨himp, c8_signature_handling rfl rfl rfl himp⟩

end CometTS
